import Mathlib

/-!
# Verification of the fast-fdfb FDFB bootstrapping core

A shallow embedding of the Go sources of the fast-fdfb repository
(package `tfhe`): the recursive LUT decomposition, the compress-LUT
builders, the modulus switch, the FDFB bootstrap orchestrator, the
parameter compiler, the noise estimators, the binary serialization of
parameters, and the hierarchical encryptor with a shared LWE key.

Machine integers of type `T ∈ {uint32, uint64}` are modelled as `Nat`
with explicit reduction `% 2^w` (`w = 32` or `64`); Go `int` values that
can be negative are modelled as `Int`.  Floating-point computations of
the noise estimators are modelled over `ℝ` (idealized, exact reals), with
`math.Erfc` kept abstract as a function parameter.
-/

namespace FastFDFB

/-! ## Go integer semantics helpers -/

/-- Wrap-around reduction of unsigned `w`-bit arithmetic: Go values of
type `T` with `Q = 2^w`. -/
def wrap (w : Nat) (x : Nat) : Nat := x % 2 ^ w

/-- Go unsigned subtraction `a - b` on `w`-bit integers (wraps around). -/
def goSub (w : Nat) (a b : Nat) : Nat := (a + (2 ^ w - b % 2 ^ w)) % 2 ^ w

/-- Go unsigned negation `-a` on `w`-bit integers. -/
def goNeg (w : Nat) (a : Nat) : Nat := goSub w 0 a

/-- Modelled from the spec: `num.DivRound(a, b)` of the underlying
library (not under `src/`) returns `a / b` rounded to the nearest
integer; for nonnegative arguments this is `⌊a/b + 1/2⌋`. -/
def divRound (a b : Nat) : Nat := (2 * a + b) / (2 * b)

/-- `num.IsPowerOfTwo`, modelled from the spec: a positive integer with a
single set bit. -/
def isPowerOfTwo (n : Nat) : Bool := n != 0 && (n &&& (n - 1)) == 0

/-- Fuel-driven count of trailing zero bits (`fuel` bounds the recursion;
on input `0` it returns `fuel`). -/
def tzAux : Nat → Nat → Nat
  | 0, _ => 0
  | f + 1, x => if x % 2 = 0 then tzAux f (x / 2) + 1 else 0

/-- Go `bits.TrailingZeros(uint x)` on a 64-bit platform: the number of
trailing zero bits of `x`, and `64` when `x = 0`. -/
def goTrailingZeros64 (x : Nat) : Nat := tzAux 64 x

/-- Fuel-driven floor base-2 logarithm. -/
def log2Aux : Nat → Nat → Nat
  | 0, _ => 0
  | f + 1, n => if n < 2 then 0 else log2Aux f (n / 2) + 1

/-- Go `int(math.Log2(float64(n)))` for the 64-bit integers of this
code base: `⌊log₂ n⌋` (and `0` for `n = 0`). -/
def goLog2 (n : Nat) : Nat := log2Aux 64 n

theorem log2Aux_two_pow {f k : Nat} (h : k < f) : log2Aux f (2 ^ k) = k := by
  induction f generalizing k with
  | zero => omega
  | succ f ih =>
    cases k with
    | zero => simp [log2Aux]
    | succ k =>
      have h2 : ¬ 2 ^ (k + 1) < 2 := by
        have : 2 ^ 1 ≤ 2 ^ (k + 1) := Nat.pow_le_pow_right (by omega) (by omega)
        omega
      rw [log2Aux, if_neg h2, pow_succ, Nat.mul_div_cancel _ (by omega), ih (by omega)]

theorem goLog2_two_pow {k : Nat} (h : k < 64) : goLog2 (2 ^ k) = k :=
  log2Aux_two_pow h

/-! ## C2: recursive LUT decomposition tables

Embedding of the table-recursion fragment shared verbatim by
`GenLookUpTableNegDecomposedEBSFullAssign` (src/tfhe/decompose_lut.go,
lines 41–58) and `GenLookUpTableNegDecomposedFullAssign` (lines 122–139).
Values of type `T` are naturals mod `2^w`; Go `/ 2` on `T` is truncating
division of the representative. -/

/-- One halving step, "new" table: `newFuncEval[j] = currentFuncEval[j]/2 +
currentFuncEval[j+n]/2` with `n = len/2`, in `w`-bit arithmetic
(src/tfhe/decompose_lut.go line 53 and line 134). -/
def stepNew (w : Nat) (cur : List Nat) : List Nat :=
  (List.range (cur.length / 2)).map fun j =>
    (cur.getD j 0 / 2 + cur.getD (j + cur.length / 2) 0 / 2) % 2 ^ w

/-- One halving step, "neg" table: `negFuncEval[j] = currentFuncEval[j]/2 -
currentFuncEval[j+n]/2` with Go wrap-around subtraction
(src/tfhe/decompose_lut.go line 54 and line 135). -/
def stepNeg (w : Nat) (cur : List Nat) : List Nat :=
  (List.range (cur.length / 2)).map fun j =>
    goSub w (cur.getD j 0 / 2) (cur.getD (j + cur.length / 2) 0 / 2)

/-- The decomposition loop of both builders: `k` iterations, each
appending the "neg" table of the current table and continuing with the
"new" table; returns the list of neg tables and the final base table
(src/tfhe/decompose_lut.go lines 45–58 and 126–139). -/
def decomposeFuncEval (w : Nat) : Nat → List Nat → List (List Nat) × List Nat
  | 0, cur => ([], cur)
  | k + 1, cur =>
    let r := decomposeFuncEval w k (stepNew w cur)
    (stepNeg w cur :: r.1, r.2)

/-- The full table computation of the decomposed-LUT builders: evaluate
`f` on `[0, m)` and run `logExtendFactor = ⌊log₂ e⌋` halving steps
(`logExtendFactor := int(math.Log2(float64(extendFactor)))` in the
source). -/
def genDecomposedTables (w e m : Nat) (f : Nat → Nat) :
    List (List Nat) × List Nat :=
  decomposeFuncEval w (goLog2 e) ((List.range m).map fun x => f x % 2 ^ w)

/-- The claim's (spec's) halving identity, "new" table: written from the
spec's words `new[j] = (cur[j] + cur[j+n/2]) / 2` — the sum taken in
`ℤ_Q`, then halved. -/
def specStepNew (w : Nat) (cur : List Nat) : List Nat :=
  (List.range (cur.length / 2)).map fun j =>
    ((cur.getD j 0 + cur.getD (j + cur.length / 2) 0) % 2 ^ w) / 2

/-- The claim's (spec's) halving identity, "neg" table: written from the
spec's words `negNew[j] = (cur[j] − cur[j+n/2]) / 2` — the difference
taken in `ℤ_Q`, then halved. -/
def specStepNeg (w : Nat) (cur : List Nat) : List Nat :=
  (List.range (cur.length / 2)).map fun j =>
    (goSub w (cur.getD j 0) (cur.getD (j + cur.length / 2) 0)) / 2

/-! ## C1: the recursive FDFB bootstrap orchestrator as an operation trace

`BootstrapExtendedFullDomainAssignNew` and
`BlindRotateExtendedFullDomainAssignNew` (src/unnamed/part_001, lines
35–58) only sequence calls to the evaluator's kernels on named scratch
buffers.  We embed them as the trace of kernel invocations they perform,
recording for each call the source/destination buffers, the LUT used and
the extend factor passed. -/

/-- The buffers named by the orchestrator: the two LWE arguments and the
evaluator scratch buffers `e.buffer.*`. -/
inductive BootBuf where
  | argCt | argCtOut | ctKeySwitchForBootstrap | ctRotate | ctEBSAcc | ctLWEExtracted
  deriving DecidableEq, Repr

/-- A look-up table referenced by the orchestrator: the compress LUT or
an entry of the decomposed-LUT list. -/
inductive LutRef where
  | compress | decomposed (i : Nat)
  deriving DecidableEq, Repr

/-- One kernel invocation of the bootstrap orchestrator. -/
inductive BootOp where
  | keySwitchForBootstrap (src dst : BootBuf)
  | blindRotateArbitraryExtended (src : BootBuf) (lut : LutRef) (extendFactor : Nat) (dst : BootBuf)
  | blindRotateLUTCompress (src : BootBuf) (lut : LutRef) (dst : BootBuf)
  | blindRotateBaseLUT (src : BootBuf) (lut : LutRef) (dst : BootBuf)
  | addGLWE (a b dst : BootBuf)
  | sampleExtract (src : BootBuf) (coeff : Nat) (dst : BootBuf)
  deriving DecidableEq, Repr

/-- Trace of `BlindRotateExtendedFullDomainAssignNew(ct, lutCompress,
decomposedLUT, ctOut)` (src/unnamed/part_001, lines 40–58) where `ct` is
the buffer `src`, `ctOut` is `ctRotate`, `e` is the poly-extend factor
and `len` the length of `decomposedLUT`.  The Go loop
`for i := 1; i < len(decomposedLUT)-1; i++` runs over `[1, len-1)`. -/
def blindRotateEFDNewTrace (src : BootBuf) (e len : Nat) : List BootOp :=
  [.blindRotateArbitraryExtended src (.decomposed 0) (e / 2) .ctRotate]
  ++ (List.range' 1 (len - 1 - 1)).flatMap (fun i =>
      [.blindRotateArbitraryExtended src (.decomposed i) (e / 2 ^ (i + 1)) .ctEBSAcc,
       .addGLWE .ctEBSAcc .ctRotate .ctRotate])
  ++ [.blindRotateLUTCompress src .compress .ctEBSAcc,
      .sampleExtract .ctEBSAcc 0 .ctLWEExtracted,
      .keySwitchForBootstrap .ctLWEExtracted .ctKeySwitchForBootstrap,
      .blindRotateBaseLUT .ctKeySwitchForBootstrap (.decomposed (len - 1)) .ctEBSAcc,
      .addGLWE .ctEBSAcc .ctRotate .ctRotate]

/-- Trace of `BootstrapExtendedFullDomainAssignNew(ct, lutCompress,
decomposedLut, ctOut)` (src/unnamed/part_001, lines 35–39): key-switch
`ct` into `ctKeySwitchForBootstrap`, run the blind-rotate variant on that
buffer, then sample-extract index 0 of `ctRotate` into `ctOut`. -/
def bootstrapEFDNewTrace (e len : Nat) : List BootOp :=
  .keySwitchForBootstrap .argCt .ctKeySwitchForBootstrap
    :: blindRotateEFDNewTrace .ctKeySwitchForBootstrap e len
    ++ [.sampleExtract .ctRotate 0 .argCtOut]

/-- The sequence asserted by the claim, written from the claim's words:
no initial key-switch, the blind rotations read the input ciphertext
`ct` itself; (i) rotate through `decomposedLUT[0]` at extend factor
`e/2` into the accumulator, (ii) for each intermediate `k ∈ [1, len-2]`
rotate at `e/2^(k+1)` and add into the accumulator, (iii) rotate through
the compress LUT, sample-extract coefficient 0, key-switch, rotate
through the base LUT `decomposedLUT[len-1]`, add into the accumulator,
(iv) sample-extract index 0 into `ctOut`. -/
def claimedBootstrapEFDNewTrace (e len : Nat) : List BootOp :=
  [.blindRotateArbitraryExtended .argCt (.decomposed 0) (e / 2) .ctRotate]
  ++ (List.range' 1 (len - 1 - 1)).flatMap (fun k =>
      [.blindRotateArbitraryExtended .argCt (.decomposed k) (e / 2 ^ (k + 1)) .ctEBSAcc,
       .addGLWE .ctEBSAcc .ctRotate .ctRotate])
  ++ [.blindRotateLUTCompress .argCt .compress .ctEBSAcc,
      .sampleExtract .ctEBSAcc 0 .ctLWEExtracted,
      .keySwitchForBootstrap .ctLWEExtracted .ctKeySwitchForBootstrap,
      .blindRotateBaseLUT .ctKeySwitchForBootstrap (.decomposed (len - 1)) .ctEBSAcc,
      .addGLWE .ctEBSAcc .ctRotate .ctRotate]
  ++ [.sampleExtract .ctRotate 0 .argCtOut]

/-- The amended sequence: step (0) key-switches `ct` for bootstrap into
the evaluator's key-switch buffer, and the blind rotations of steps
(i)–(iii) read that key-switched ciphertext; the k-th intermediate
rotation is built here by recursion on the list of intermediate
indices. -/
def amendedBootstrapEFDNewTrace (e len : Nat) : List BootOp :=
  let rotations : List Nat → List BootOp :=
    fun ks => ks.flatMap fun k =>
      [.blindRotateArbitraryExtended .ctKeySwitchForBootstrap (.decomposed k)
          (e / 2 ^ (k + 1)) .ctEBSAcc,
       .addGLWE .ctEBSAcc .ctRotate .ctRotate]
  [.keySwitchForBootstrap .argCt .ctKeySwitchForBootstrap,
   .blindRotateArbitraryExtended .ctKeySwitchForBootstrap (.decomposed 0) (e / 2) .ctRotate]
  ++ rotations (List.range' 1 (len - 2))
  ++ [.blindRotateLUTCompress .ctKeySwitchForBootstrap .compress .ctEBSAcc,
      .sampleExtract .ctEBSAcc 0 .ctLWEExtracted,
      .keySwitchForBootstrap .ctLWEExtracted .ctKeySwitchForBootstrap,
      .blindRotateBaseLUT .ctKeySwitchForBootstrap (.decomposed (len - 1)) .ctEBSAcc,
      .addGLWE .ctEBSAcc .ctRotate .ctRotate,
      .sampleExtract .ctRotate 0 .argCtOut]

/-! ## C3: the compress modulus switch

`ModSwitchCompress` (src/tfhe/bootstrap.go, lines 721–723) computes
`int(math.Round(e.modSwitchConstant*float64(x))*2) % (2*polyDegree)`.
The floating-point product and rounding are modelled exactly over `ℚ`.
The evaluator's `modSwitchConstant` is initialized outside `src/`;
modelled from the spec: `c = 2L/Q` where `L` is the look-up-table
size. -/

/-- Modelled from the spec: the evaluator's modulus-switch constant
`c = 2L/Q`. -/
def modSwitchConstant (L Q : Nat) : ℚ := 2 * L / Q

/-- `ModSwitchCompress(x)` as the code computes it: round `c·x`, double,
reduce modulo `2·polyDegree` (src/tfhe/bootstrap.go line 722). -/
def modSwitchCompress (N L Q x : Nat) : Int :=
  (round (modSwitchConstant L Q * x) * 2) % (2 * (N : Int))

/-- The claim's formula, written from the spec's words: round `c·x`,
double, reduce modulo `2L` (`L` the look-up-table size). -/
def specModSwitchCompress (L Q x : Nat) : Int :=
  (round (modSwitchConstant L Q * x) * 2) % (2 * (L : Int))

/-- The amended formula: as the claim, but reduced modulo twice the
polynomial degree `N` rather than twice the look-up-table size. -/
def amendedModSwitchCompress (N L Q x : Nat) : Int :=
  2 * round (modSwitchConstant L Q * x) % (2 * (N : Int))

/-! ## C8: compress-LUT builders

`GenCompressLUTAssign` (src/unnamed/part_001, lines 8–29) and
`GenExtendedCompressLUTAssign` (lines 60–81) fill a raw LUT with the
codeword `(T(1)<<63/m)*x + (T(1)<<62/m)`, computed in `T`-arithmetic.
In Go, shifting a `uint32` left by 63 or 62 yields `0`, so the shifts
are modelled as `2^63` and `2^62` reduced mod `2^w`. -/

/-- The codeword written for message `x` by both compress-LUT builders:
`(T(1)<<63/baseMessageModulus)*x + (T(1)<<62/baseMessageModulus)` in
`w`-bit arithmetic. -/
def compressCodeword (w m x : Nat) : Nat :=
  wrap w (wrap w (wrap w (2 ^ 63) / m * x) + wrap w (2 ^ 62) / m)

/-- The codeword asserted by the claim: `(Q/(2m))·x + Q/(4m)` with
`Q = 2^w`. -/
def specCompressCodeword (w m x : Nat) : Nat :=
  wrap w (2 ^ w / (2 * m) * x + 2 ^ w / (4 * m))

/-- Imperative run fill: write `v` at positions `[start, stop)`. -/
def setRange (l : List Nat) (v start stop : Nat) : List Nat :=
  (List.range' start (stop - start)).foldl (fun acc xx => acc.set xx v) l

/-- The raw-LUT fill loop shared by the compress-LUT builders: for each
`x ∈ [0, m/2)` fill positions `[DivRound(2x·P, m), DivRound(2(x+1)·P, m))`
with the codeword of `x`, over a zero-initialized raw vector of length
`P` (`P = 2048` in `GenCompressLUTAssign`, `P = lookUpTableSize` in
`GenExtendedCompressLUTAssign`). -/
def genCompressLUTRaw (w m P : Nat) : List Nat :=
  (List.range (m / 2)).foldl
    (fun acc x =>
      setRange acc (compressCodeword w m x) (divRound (2 * x * P) m) (divRound (2 * (x + 1) * P) m))
    (List.replicate P 0)

/-! ## C5, C7: parameter compiler and binary serialization

`GadgetParametersLiteral.Compile`, `ParametersLiteral.Compile`, and the
`WriteTo`/`ReadFrom` methods (src/unnamed/part_002).  Go `int` fields are
`Int`; `T` fields are `Nat` mod `2^w`; `float64` standard deviations are
carried as their IEEE-754 bit patterns (`Float64bits` values), which is
what the serializer writes. -/

/-- IEEE-754 binary64: the pattern is a NaN (exponent all ones, nonzero
mantissa). -/
def float64IsNaN (b : Nat) : Bool := b / 2 ^ 52 % 2 ^ 11 == 2047 && b % 2 ^ 52 != 0

/-- IEEE-754 binary64: the value of the pattern is `≤ 0` — it is `+0`,
or its sign bit is set and it is not a NaN (covering `-0`, negative
reals and `-∞`).  This is the test `stdDev <= 0` of the compiler. -/
def float64LeZero (b : Nat) : Bool := b == 0 || (decide (2 ^ 63 ≤ b) && !float64IsNaN b)

/-- `num.IsPowerOfTwo` on a Go `int`, modelled from the spec: positive
and a power of two. -/
def isPowerOfTwoInt (i : Int) : Bool := decide (0 < i) && isPowerOfTwo i.toNat

structure GadgetParametersLiteral where
  base : Nat
  level : Int
  deriving DecidableEq, Repr

structure GadgetParameters where
  base : Nat
  logBase : Nat
  level : Int
  sizeT : Nat
  deriving DecidableEq, Repr

/-- The panic guard of `GadgetParametersLiteral.Compile`
(src/unnamed/part_002, lines 43–52), each Go `case cond: panic` negated
in source order. -/
def gadgetCompileOk (w : Nat) (p : GadgetParametersLiteral) : Bool :=
  !decide (p.base < 2) && isPowerOfTwo p.base && !decide (p.level ≤ 0) &&
    !decide ((w : Int) < (goLog2 p.base : Int) * p.level)

/-- `GadgetParametersLiteral.Compile` (src/unnamed/part_002, lines
42–60): `none` models a panic. -/
def gadgetCompile (w : Nat) (p : GadgetParametersLiteral) : Option GadgetParameters :=
  if gadgetCompileOk w p then
    some { base := p.base, logBase := goLog2 p.base, level := p.level, sizeT := w }
  else none

/-- `GadgetParameters.Literal` (src/unnamed/part_002, lines 122–127). -/
def gadgetLiteral (p : GadgetParameters) : GadgetParametersLiteral :=
  { base := p.base, level := p.level }

structure ParametersLiteral where
  lweDimension : Int
  glweRank : Int
  polyDegree : Int
  lookUpTableSize : Int
  lweStdDevBits : Nat
  glweStdDevBits : Nat
  blockSize : Int
  messageModulus : Nat
  blindRotateParameters : GadgetParametersLiteral
  keySwitchParameters : GadgetParametersLiteral
  bootstrapOrder : Int
  deriving DecidableEq, Repr

/-- Compiled `Parameters` (src/unnamed/part_002, lines 433–478); the
`floatQ` field is determined by `logQ` and not carried separately. -/
structure Parameters where
  lweDimension : Int
  glweDimension : Int
  glweRank : Int
  polyDegree : Int
  logPolyDegree : Int
  lookUpTableSize : Int
  polyExtendFactor : Int
  lweStdDevBits : Nat
  glweStdDevBits : Nat
  blockSize : Int
  blockCount : Int
  messageModulus : Nat
  scale : Nat
  logQ : Nat
  blindRotateParameters : GadgetParameters
  keySwitchParameters : GadgetParameters
  bootstrapOrder : Int
  deriving DecidableEq, Repr

/-- The zero-value defaulting at the top of `ParametersLiteral.Compile`
(src/unnamed/part_002, lines 372–377). -/
def defaultLit (p : ParametersLiteral) : ParametersLiteral :=
  { p with
    lookUpTableSize := if p.lookUpTableSize = 0 then p.polyDegree else p.lookUpTableSize,
    blockSize := if p.blockSize = 0 then 1 else p.blockSize }

/-- The panic guard of `ParametersLiteral.Compile` (src/unnamed/part_002,
lines 379–402), each Go `case cond: panic` negated in source order;
applied to the defaulted literal. -/
def paramsCompileOk (p : ParametersLiteral) : Bool :=
  !decide (p.lweDimension ≤ 0) &&
  !decide (p.lweDimension > p.glweRank * p.polyDegree) &&
  !decide (p.glweRank ≤ 0) &&
  !decide (p.lookUpTableSize < p.polyDegree) &&
  !float64LeZero p.lweStdDevBits &&
  !float64LeZero p.glweStdDevBits &&
  !decide (p.blockSize ≤ 0) &&
  !decide (p.lweDimension.tmod p.blockSize ≠ 0) &&
  !decide (p.lookUpTableSize.tmod p.polyDegree ≠ 0) &&
  isPowerOfTwoInt p.polyDegree &&
  decide (p.bootstrapOrder = 0 ∨ p.bootstrapOrder = 1)

/-- `ParametersLiteral.Compile` (src/unnamed/part_002, lines 371–430):
default the zero fields, run the panic guard, then construct the
compiled record, compiling both gadget parameter sets (whose own panics
propagate).  `num.DivRound` in the `scale` field is the external rounded
division. -/
def paramsCompile (w : Nat) (p0 : ParametersLiteral) : Option Parameters :=
  let p := defaultLit p0
  if paramsCompileOk p then do
    let brk ← gadgetCompile w p.blindRotateParameters
    let ksk ← gadgetCompile w p.keySwitchParameters
    some
      { lweDimension := p.lweDimension
        glweDimension := p.glweRank * p.polyDegree
        glweRank := p.glweRank
        polyDegree := p.polyDegree
        logPolyDegree := goLog2 p.polyDegree.toNat
        lookUpTableSize := p.lookUpTableSize
        polyExtendFactor := p.lookUpTableSize.tdiv p.polyDegree
        lweStdDevBits := p.lweStdDevBits
        glweStdDevBits := p.glweStdDevBits
        blockSize := p.blockSize
        blockCount := p.lweDimension.tdiv p.blockSize
        messageModulus := p.messageModulus
        scale := wrap w (divRound (2 ^ (w - 1)) p.messageModulus * 2)
        logQ := w
        blindRotateParameters := brk
        keySwitchParameters := ksk
        bootstrapOrder := p.bootstrapOrder }
  else none

/-- `Parameters.Literal` (src/unnamed/part_002, lines 622–641). -/
def paramsLiteral (p : Parameters) : ParametersLiteral :=
  { lweDimension := p.lweDimension
    glweRank := p.glweRank
    polyDegree := p.polyDegree
    lookUpTableSize := p.lookUpTableSize
    lweStdDevBits := p.lweStdDevBits
    glweStdDevBits := p.glweStdDevBits
    blockSize := p.blockSize
    messageModulus := p.messageModulus
    blindRotateParameters := gadgetLiteral p.blindRotateParameters
    keySwitchParameters := gadgetLiteral p.keySwitchParameters
    bootstrapOrder := p.bootstrapOrder }

/-- The invariant list exactly as the claim states it (defaulting
applied by the caller): `n > 0`; `n ≤ k·N`; `k > 0`; `L ≥ N` and
`L mod N = 0`; `N` a power of two; `n mod b = 0`; both gadget sets have
a power-of-two base `≥ 2`, positive level and `β·ℓ ≤ log₂ Q`;
`σ_LWE > 0` and `σ_GLWE > 0` (as the IEEE test "not `≤ 0`"); the order
is one of the two valid values. -/
def claimCompileInvariants (w : Nat) (p : ParametersLiteral) : Prop :=
  0 < p.lweDimension ∧ p.lweDimension ≤ p.glweRank * p.polyDegree ∧ 0 < p.glweRank ∧
  p.polyDegree ≤ p.lookUpTableSize ∧ p.lookUpTableSize.tmod p.polyDegree = 0 ∧
  isPowerOfTwoInt p.polyDegree = true ∧ p.lweDimension.tmod p.blockSize = 0 ∧
  (2 ≤ p.blindRotateParameters.base ∧ isPowerOfTwo p.blindRotateParameters.base = true ∧
    0 < p.blindRotateParameters.level ∧
    (goLog2 p.blindRotateParameters.base : Int) * p.blindRotateParameters.level ≤ (w : Int)) ∧
  (2 ≤ p.keySwitchParameters.base ∧ isPowerOfTwo p.keySwitchParameters.base = true ∧
    0 < p.keySwitchParameters.level ∧
    (goLog2 p.keySwitchParameters.base : Int) * p.keySwitchParameters.level ≤ (w : Int)) ∧
  ¬ float64LeZero p.lweStdDevBits = true ∧ ¬ float64LeZero p.glweStdDevBits = true ∧
  (p.bootstrapOrder = 0 ∨ p.bootstrapOrder = 1)

/-- The amended invariant list: the claim's list plus the block size
being positive (`b > 0`), which the compiler also checks. -/
def amendedCompileInvariants (w : Nat) (p : ParametersLiteral) : Prop :=
  claimCompileInvariants w p ∧ 0 < p.blockSize

/-! ### Serialization (C7) -/

/-- Go `uint64(i)` of an `int`: two's-complement reduction. -/
def toUInt64 (i : Int) : Nat := (i.emod (2 ^ 64)).toNat

/-- Go `int(v)` of a `uint64`: two's-complement interpretation. -/
def toInt64 (v : Nat) : Int := if v < 2 ^ 63 then (v : Int) else (v : Int) - 2 ^ 64

/-- `binary.BigEndian.PutUint64`: the eight bytes of `v`, most
significant first. -/
def putUint64BE (v : Nat) : List Nat :=
  [v / 2 ^ 56 % 256, v / 2 ^ 48 % 256, v / 2 ^ 40 % 256, v / 2 ^ 32 % 256,
   v / 2 ^ 24 % 256, v / 2 ^ 16 % 256, v / 2 ^ 8 % 256, v % 256]

/-- `binary.BigEndian.Uint64` of eight bytes. -/
def beUint64 (l : List Nat) : Nat :=
  l.getD 0 0 * 2 ^ 56 + l.getD 1 0 * 2 ^ 48 + l.getD 2 0 * 2 ^ 40 + l.getD 3 0 * 2 ^ 32 +
    l.getD 4 0 * 2 ^ 24 + l.getD 5 0 * 2 ^ 16 + l.getD 6 0 * 2 ^ 8 + l.getD 7 0

/-- `GadgetParameters.WriteTo` (src/unnamed/part_002, lines 140–164):
8 bytes big-endian `uint64(Base)`, then 8 bytes `uint64(Level)`. -/
def gadgetWriteTo (p : GadgetParameters) : List Nat :=
  putUint64BE p.base ++ putUint64BE (toUInt64 p.level)

/-- `GadgetParameters.ReadFrom` (src/unnamed/part_002, lines 167–189):
read 16 bytes, truncate the base to `T`, and re-`Compile` the literal
(whose panic propagates as `none`); returns the remaining bytes. -/
def gadgetReadFrom (w : Nat) (l : List Nat) : Option (GadgetParameters × List Nat) :=
  if l.length < 16 then none
  else
    match gadgetCompile w
      { base := wrap w (beUint64 (l.take 8)),
        level := toInt64 (beUint64 ((l.drop 8).take 8)) } with
    | some g => some (g, l.drop 16)
    | none => none

/-- `Parameters.WriteTo` (src/unnamed/part_002, lines 826–908): eight
big-endian `uint64` header fields (`n`, `k`, `N`, `L`, the two std-dev
bit patterns, `b`, `m`), the two gadget blocks, and one byte for the
bootstrap order. -/
def paramsWriteTo (p : Parameters) : List Nat :=
  putUint64BE (toUInt64 p.lweDimension) ++ putUint64BE (toUInt64 p.glweRank) ++
  putUint64BE (toUInt64 p.polyDegree) ++ putUint64BE (toUInt64 p.lookUpTableSize) ++
  putUint64BE p.lweStdDevBits ++ putUint64BE p.glweStdDevBits ++
  putUint64BE (toUInt64 p.blockSize) ++ putUint64BE p.messageModulus ++
  gadgetWriteTo p.blindRotateParameters ++ gadgetWriteTo p.keySwitchParameters ++
  [toUInt64 p.bootstrapOrder % 256]

/-- `Parameters.ReadFrom` (src/unnamed/part_002, lines 911–1002): parse
the eight header fields, the two gadget blocks and the order byte, then
`Compile` the reassembled literal (whose panic propagates as `none`). -/
def paramsReadFrom (w : Nat) (l : List Nat) : Option Parameters :=
  if l.length < 64 then none
  else
    (gadgetReadFrom w (l.drop 64)).bind fun brk1 =>
      (gadgetReadFrom w brk1.2).bind fun ksk1 =>
        if ksk1.2.length < 1 then none
        else
          paramsCompile w
            { lweDimension := toInt64 (beUint64 (l.take 8))
              glweRank := toInt64 (beUint64 ((l.drop 8).take 8))
              polyDegree := toInt64 (beUint64 ((l.drop 16).take 8))
              lookUpTableSize := toInt64 (beUint64 ((l.drop 24).take 8))
              lweStdDevBits := beUint64 ((l.drop 32).take 8)
              glweStdDevBits := beUint64 ((l.drop 40).take 8)
              blockSize := toInt64 (beUint64 ((l.drop 48).take 8))
              messageModulus := wrap w (beUint64 ((l.drop 56).take 8))
              blindRotateParameters := gadgetLiteral brk1.1
              keySwitchParameters := gadgetLiteral ksk1.1
              bootstrapOrder := (ksk1.2.getD 0 0 : Int) }

/-! ## C6, C9, C10: encryptor, secret keys, and the shared-key hierarchy

Go slices alias an underlying array; we model an explicit heap of
numbered buffers and slice headers `(id, offset, length)`, so that
aliasing (`a[i:j]` sharing the array of `a`) is observable.  The CSPRNG
samplers are modelled as a stream counter: the `i`-th sampled value is
`stream i` for an arbitrary stream function. -/

/-- A Go slice header: buffer id, offset and length. -/
structure Slice where
  id : Nat
  off : Nat
  len : Nat
  deriving DecidableEq, Repr

/-- A heap of numbered buffers. -/
structure Heap where
  next : Nat
  mem : Nat → List Nat

/-- `make([]T, n)`: allocate a fresh zeroed buffer. -/
def Heap.alloc (h : Heap) (n : Nat) : Slice × Heap :=
  ({ id := h.next, off := 0, len := n },
   { next := h.next + 1,
     mem := fun i => if i = h.next then List.replicate n 0 else h.mem i })

/-- Go reslicing `s[lo:hi]`: a view into the same buffer. -/
def Slice.reslice (s : Slice) (lo hi : Nat) : Slice :=
  { id := s.id, off := s.off + lo, len := hi - lo }

/-- Read element `i` of the view `s`. -/
def Heap.read (h : Heap) (s : Slice) (i : Nat) : Nat :=
  (h.mem s.id).getD (s.off + i) 0

/-- Write `v` at element `i` of the view `s`. -/
def Heap.write (h : Heap) (s : Slice) (i v : Nat) : Heap :=
  { h with
    mem := fun j => if j = s.id then (h.mem s.id).set (s.off + i) v else h.mem j }

/-- Write `n` stream values into view `s` starting at stream position
`c`. -/
def Heap.fill (stream : Nat → Nat) (s : Slice) (c : Nat) (h : Heap) : Nat → Heap
  | 0 => h
  | n + 1 => (Heap.fill stream s c h n).write s n (stream (c + n))

/-- The secret-key record: `LWELargeKey`, its prefix `LWEKey`, the
`GLWEKey` polynomials viewing its chunks, and the Fourier key buffer. -/
structure SecretKey where
  lweLargeKey : Slice
  lweKey : Slice
  glweKey : List Slice
  fourierGLWEKey : Slice
  deriving DecidableEq, Repr

/-- Modelled from the spec: `NewSecretKey` of the underlying library
(not under `src/`) allocates one buffer of length `glweDimension` for
`LWELargeKey`; `LWEKey` views its prefix of length `lweDimension`, and
`GLWEKey.Value[i]` views its chunk `[i·N, (i+1)·N)` ("its flattened
coefficient vector is the head of the LWE-large key", spec §3); the
Fourier key is a separate fresh buffer. -/
def newSecretKey (glweDimension lweDimension glweRank polyDegree : Nat) (h : Heap) :
    SecretKey × Heap :=
  let (buf, h1) := h.alloc glweDimension
  let (fbuf, h2) := h1.alloc glweDimension
  ({ lweLargeKey := buf
     lweKey := buf.reslice 0 lweDimension
     glweKey := (List.range glweRank).map fun i =>
       buf.reslice (i * polyDegree) ((i + 1) * polyDegree)
     fourierGLWEKey := fbuf }, h2)

/-- The encryptor state read and owned by the functions under study: its
compiled parameters and secret key.  The samplers' internal state is the
stream counter, threaded separately (the `Encryptor` fields are pointers
to the sampler objects and do not change when sampling advances). -/
structure Encryptor where
  params : Parameters
  secretKey : SecretKey
  deriving Repr

/-- `Encryptor.GenSecretKey` on given parameters (src/tfhe/encryptor.go,
lines 185–200): allocate a fresh key, sample its `LWELargeKey` (in one
piece when `blockSize = 1`, else block-sampled head `[:lweDimension]`
then tail `[lweDimension:]`), then write the Fourier transform of the
GLWE key into the key's own Fourier buffer (the transform itself is the
external `ToFourierGLWESecretKeyAssign`; its values are modelled as
further stream values).  Returns the key, the heap and the advanced
stream counter. -/
def genSecretKeyP (p : Parameters) (stream : Nat → Nat) (h : Heap) (c : Nat) :
    SecretKey × Heap × Nat :=
  let gd := p.glweDimension.toNat
  let n := p.lweDimension.toNat
  let (sk, h1) := newSecretKey gd n p.glweRank.toNat p.polyDegree.toNat h
  if p.blockSize = 1 then
    let h2 := Heap.fill stream sk.lweLargeKey c h1 sk.lweLargeKey.len
    let c2 := c + sk.lweLargeKey.len
    let h3 := Heap.fill stream sk.fourierGLWEKey c2 h2 sk.fourierGLWEKey.len
    (sk, h3, c2 + sk.fourierGLWEKey.len)
  else
    let head := sk.lweLargeKey.reslice 0 n
    let tail := sk.lweLargeKey.reslice n sk.lweLargeKey.len
    let h2 := Heap.fill stream tail (c + head.len) (Heap.fill stream head c h1 head.len) tail.len
    let c2 := c + head.len + tail.len
    let h3 := Heap.fill stream sk.fourierGLWEKey c2 h2 sk.fourierGLWEKey.len
    (sk, h3, c2 + sk.fourierGLWEKey.len)

/-- `Encryptor.GenSecretKey` (src/tfhe/encryptor.go, lines 185–200) as a
method: the receiver is returned unchanged alongside the fresh key. -/
def genSecretKey (e : Encryptor) (stream : Nat → Nat) (h : Heap) (c : Nat) :
    SecretKey × Encryptor × Heap × Nat :=
  ((genSecretKeyP e.params stream h c).1, e,
    (genSecretKeyP e.params stream h c).2.1, (genSecretKeyP e.params stream h c).2.2)

/-- `NewEncryptor` (src/tfhe/encryptor.go, lines 57–77): builds the
encryptor and samples its secret key. -/
def newEncryptor (p : Parameters) (stream : Nat → Nat) (h : Heap) (c : Nat) :
    Encryptor × Heap × Nat :=
  ({ params := p, secretKey := (genSecretKeyP p stream h c).1 },
    (genSecretKeyP p stream h c).2.1, (genSecretKeyP p stream h c).2.2)

/-- The depth computed by `NewEncryptorHierarchyWithSharedLWEKey`:
`bits.TrailingZeros(uint(params.polyDegree / 2048))`
(src/tfhe/encryptor.go, line 80). -/
def hierDepth (polyDegree : Int) : Nat :=
  goTrailingZeros64 (polyDegree.tdiv 2048).toNat

/-- The level-construction loop of `NewEncryptorHierarchyWithSharedLWEKey`
(src/tfhe/encryptor.go, lines 83–102): each level copies the parameters
with the running halved `polyDegree`, `lookUpTableSize`, `glweDimension`
and decremented `logPolyDegree`, builds a fresh encryptor, then halves
again. -/
def buildLevels (p : Parameters) (stream : Nat → Nat) :
    Int → Int → Int → Int → Nat → Heap → Nat → List Encryptor × Heap × Nat
  | _, _, _, _, 0, h, c => ([], h, c)
  | pd, lts, gd, lpd, n + 1, h, c =>
    let r1 := newEncryptor
      { p with polyDegree := pd, lookUpTableSize := lts, glweDimension := gd,
               logPolyDegree := lpd } stream h c
    let r2 := buildLevels p stream (pd.tdiv 2) (lts.tdiv 2) (gd.tdiv 2) (lpd - 1) n
      r1.2.1 r1.2.2
    (r1.1 :: r2.1, r2.2.1, r2.2.2)

/-- The aliasing pass for level `i ≥ 1` (src/tfhe/encryptor.go, lines
105–118): repoint `LWELargeKey` at the prefix of length
`glweDimension_i` of the root's `LWELargeKey`, `LWEKey` at its prefix of
length `lweDimension`, and each `GLWEKey.Value[j]` at its chunk
`[j·N_i, (j+1)·N_i)`. -/
def shareViews (root : Encryptor) (e : Encryptor) : Encryptor :=
  let length := e.params.glweDimension.toNat
  let lweLarge := root.secretKey.lweLargeKey.reslice 0 length
  let pd := e.params.polyDegree.toNat
  { e with
    secretKey :=
      { e.secretKey with
        lweLargeKey := lweLarge
        lweKey := lweLarge.reslice 0 e.params.lweDimension.toNat
        glweKey := (List.range e.params.glweRank.toNat).map fun j =>
          lweLarge.reslice (j * pd) ((j + 1) * pd) } }

/-- `NewEncryptorHierarchyWithSharedLWEKey` (src/tfhe/encryptor.go,
lines 79–122): build `depth` levels of halved encryptors, regenerate the
root's secret key (`encryptors[0].SecretKey = encryptors[0].GenSecretKey()`
— an index-out-of-range panic, modelled as `none`, when the slice is
empty), then repoint every deeper level's key views into the root's key
buffer and rewrite its Fourier key.  External constructor panics inside
`NewEncryptor` (e.g. on degenerate halved degrees) are outside `src/`
and not modelled. -/
def newEncryptorHierarchyWithSharedLWEKey (p : Parameters) (stream : Nat → Nat)
    (h : Heap) (c : Nat) : Option (List Encryptor × Heap × Nat) :=
  let r := buildLevels p stream (p.polyDegree.tdiv 2) (p.lookUpTableSize.tdiv 2)
    (p.glweDimension.tdiv 2) (p.logPolyDegree - 1) (hierDepth p.polyDegree) h c
  match r.1 with
  | [] => none
  | e0 :: rest =>
    let r0 := genSecretKeyP e0.params stream r.2.1 r.2.2
    let e0' : Encryptor := { e0 with secretKey := r0.1 }
    let shared := rest.map (shareViews e0')
    let hc := shared.foldl
      (fun (acc : Heap × Nat) e =>
        (Heap.fill stream e.secretKey.fourierGLWEKey acc.2 acc.1
          e.secretKey.fourierGLWEKey.len,
         acc.2 + e.secretKey.fourierGLWEKey.len))
      (r0.2.1, r0.2.2)
    some (e0' :: shared, hc.1, hc.2)

/-! ## C4: noise estimators

The estimator methods of `Parameters` (src/unnamed/part_002, lines
643–804) compute over `float64`; they are modelled over `ℝ` (exact
reals), with `math.Erfc` abstracted as a function parameter.  The fields
read by the estimators are collected in `NoiseModel`; integer fields are
the (nonnegative) values of the corresponding compiled parameters, and
the gadget level (a positive Go `int`) is a `Nat`. -/

/-- The compiled-parameter fields read by the noise estimators. -/
structure NoiseModel where
  lweDimension : Nat
  glweRank : Nat
  polyDegree : Nat
  lookUpTableSize : Nat
  polyExtendFactor : Nat
  blockSize : Nat
  blockCount : Nat
  messageModulus : Nat
  logQ : Nat
  lweStdDev : ℝ
  glweStdDev : ℝ
  brBase : Nat
  brLevel : Nat
  ksBase : Nat
  ksLevel : Nat

namespace NoiseModel

/-- `p.floatQ = math.Exp2(float64(num.SizeT[T]()))`. -/
noncomputable def floatQ (p : NoiseModel) : ℝ := 2 ^ p.logQ

/-- `h := float64(blockCount) * float64(blockSize) / float64(blockSize+1)`,
common to the estimators. -/
noncomputable def hVal (p : NoiseModel) : ℝ :=
  p.blockCount * p.blockSize / (p.blockSize + 1)

/-- `p.GLWEStdDevQ() = glweStdDev * floatQ`. -/
noncomputable def glweStdDevQ (p : NoiseModel) : ℝ := p.glweStdDev * p.floatQ

/-- `p.LWEStdDevQ() = lweStdDev * floatQ`. -/
noncomputable def lweStdDevQ (p : NoiseModel) : ℝ := p.lweStdDev * p.floatQ

/-- The mod-switch variance of `EstimateModSwitchStdDev`
(src/unnamed/part_002, lines 644–653): `(h+1)·q²/(48·L²)`. -/
noncomputable def modSwitchVar (p : NoiseModel) : ℝ :=
  ((p.hVal + 1) * p.floatQ * p.floatQ) / (48 * p.lookUpTableSize * p.lookUpTableSize)

/-- `EstimateModSwitchStdDev`. -/
noncomputable def estimateModSwitchStdDev (p : NoiseModel) : ℝ :=
  Real.sqrt p.modSwitchVar

/-- The mod-switch variance of `EstimateModSwitchNewStdDev`
(src/unnamed/part_002, lines 656–665): `(h+1)·q²/(12·L²)`. -/
noncomputable def modSwitchNewVar (p : NoiseModel) : ℝ :=
  ((p.hVal + 1) * p.floatQ * p.floatQ) / (12 * p.lookUpTableSize * p.lookUpTableSize)

/-- `EstimateModSwitchNewStdDev`. -/
noncomputable def estimateModSwitchNewStdDev (p : NoiseModel) : ℝ :=
  Real.sqrt p.modSwitchNewVar

/-- The blind-rotate variance of `EstimateBlindRotateStdDev`
(src/unnamed/part_002, lines 668–686):
`h·(h+(kN−n)/2+1)·q²/(6·B^(2ℓ)) + n·(ℓ·(k+1)·N·β²·B²)/6`. -/
noncomputable def blindRotateVar (p : NoiseModel) : ℝ :=
  p.hVal * (p.hVal + ((p.glweRank : ℝ) * p.polyDegree - p.lweDimension) / 2 + 1) *
      (p.floatQ * p.floatQ) / (6 * (p.brBase : ℝ) ^ (2 * p.brLevel)) +
    (p.lweDimension : ℝ) *
      ((p.brLevel : ℝ) * ((p.glweRank : ℝ) + 1) * p.polyDegree * p.glweStdDevQ *
        p.glweStdDevQ * p.brBase * p.brBase) / 6

/-- `EstimateBlindRotateStdDev`. -/
noncomputable def estimateBlindRotateStdDev (p : NoiseModel) : ℝ :=
  Real.sqrt p.blindRotateVar

/-- The depth of the recursive-variant estimators:
`bits.TrailingZeros(uint(polyDegree / 2048))`. -/
def noiseDepth (p : NoiseModel) : Nat := goTrailingZeros64 (p.polyDegree / 2048)

/-- The `i`-th summand of `EstimateBlindRotateStdDevNew`
(src/unnamed/part_002, lines 689–712), with `N_i = N / 2^(i+1)`. -/
noncomputable def blindRotateVarAt (p : NoiseModel) (i : Nat) : ℝ :=
  p.hVal * (p.hVal + ((p.glweRank : ℝ) * ((p.polyDegree : ℝ) / 2 ^ (i + 1)) - p.lweDimension) / 2 + 1) *
      (p.floatQ * p.floatQ) / (6 * (p.brBase : ℝ) ^ (2 * p.brLevel)) +
    (p.lweDimension : ℝ) *
      ((p.brLevel : ℝ) * ((p.glweRank : ℝ) + 1) * ((p.polyDegree : ℝ) / 2 ^ (i + 1)) *
        p.glweStdDevQ * p.glweStdDevQ * p.brBase * p.brBase) / 6

/-- The total of `EstimateBlindRotateStdDevNew`: the loop sums the
summand of every `i < depth` and adds the last one a second time. -/
noncomputable def blindRotateNewVarTotal (p : NoiseModel) : ℝ :=
  (∑ i ∈ Finset.range p.noiseDepth, p.blindRotateVarAt i) +
    (if 0 < p.noiseDepth then p.blindRotateVarAt (p.noiseDepth - 1) else 0)

/-- `EstimateBlindRotateStdDevNew`. -/
noncomputable def estimateBlindRotateStdDevNew (p : NoiseModel) : ℝ :=
  Real.sqrt p.blindRotateNewVarTotal

/-- The key-switch variance of `EstimateKeySwitchForBootstrapStdDev`
(src/unnamed/part_002, lines 715–730):
`((kN−n)/2)·q²/(12·B^(2ℓ)) + (kN−n)·(α²·ℓ·B²)/12`. -/
noncomputable def keySwitchVar (p : NoiseModel) : ℝ :=
  (((p.glweRank : ℝ) * p.polyDegree - p.lweDimension) / 2) * (p.floatQ * p.floatQ) /
      (12 * (p.ksBase : ℝ) ^ (2 * p.ksLevel)) +
    ((p.glweRank : ℝ) * p.polyDegree - p.lweDimension) *
      (p.lweStdDevQ * p.lweStdDevQ * p.ksLevel * p.ksBase * p.ksBase) / 12

/-- `EstimateKeySwitchForBootstrapStdDev`. -/
noncomputable def estimateKeySwitchStdDev (p : NoiseModel) : ℝ :=
  Real.sqrt p.keySwitchVar

/-- The `i`-th summand of `EstimateKeySwitchForBootstrapStdDevNew`
(src/unnamed/part_002, lines 733–753), with `N_i = N / 2^(i+1)`. -/
noncomputable def keySwitchVarAt (p : NoiseModel) (i : Nat) : ℝ :=
  (((p.glweRank : ℝ) * ((p.polyDegree : ℝ) / 2 ^ (i + 1)) - p.lweDimension) / 2) *
      (p.floatQ * p.floatQ) / (12 * (p.ksBase : ℝ) ^ (2 * p.ksLevel)) +
    ((p.glweRank : ℝ) * ((p.polyDegree : ℝ) / 2 ^ (i + 1)) - p.lweDimension) *
      (p.lweStdDevQ * p.lweStdDevQ * p.ksLevel * p.ksBase * p.ksBase) / 12

/-- The total of `EstimateKeySwitchForBootstrapStdDevNew`: the loop sums
the summand of every `i < depth` and adds the last one a second time. -/
noncomputable def keySwitchNewVarTotal (p : NoiseModel) : ℝ :=
  (∑ i ∈ Finset.range p.noiseDepth, p.keySwitchVarAt i) +
    (if 0 < p.noiseDepth then p.keySwitchVarAt (p.noiseDepth - 1) else 0)

/-- `EstimateKeySwitchForBootstrapStdDevNew`. -/
noncomputable def estimateKeySwitchStdDevNew (p : NoiseModel) : ℝ :=
  Real.sqrt p.keySwitchNewVarTotal

/-- `EstimateMaxErrorStdDev` (src/unnamed/part_002, lines 756–764). -/
noncomputable def estimateMaxErrorStdDev (p : NoiseModel) : ℝ :=
  Real.sqrt (p.estimateModSwitchStdDev * p.estimateModSwitchStdDev +
    p.estimateBlindRotateStdDev * p.estimateBlindRotateStdDev +
    p.estimateKeySwitchStdDev * p.estimateKeySwitchStdDev)

/-- `logExtendFactor := math.Log2(float64(polyExtendFactor))`. -/
noncomputable def logExtendFactor (p : NoiseModel) : ℝ :=
  Real.logb 2 p.polyExtendFactor

/-- `EstimateMaxErrorStdDevNewEBS` (src/unnamed/part_002, lines
766–775): the blind-rotate variance is scaled by `logExtendFactor+1`. -/
noncomputable def estimateMaxErrorStdDevNewEBS (p : NoiseModel) : ℝ :=
  Real.sqrt (p.estimateModSwitchNewStdDev * p.estimateModSwitchNewStdDev +
    (p.logExtendFactor + 1) * p.estimateBlindRotateStdDev * p.estimateBlindRotateStdDev +
    p.estimateKeySwitchStdDev * p.estimateKeySwitchStdDev)

/-- `EstimateMaxErrorStdDevNew` (src/unnamed/part_002, lines 777–785). -/
noncomputable def estimateMaxErrorStdDevNew (p : NoiseModel) : ℝ :=
  Real.sqrt (p.estimateModSwitchNewStdDev * p.estimateModSwitchNewStdDev +
    p.estimateBlindRotateStdDevNew * p.estimateBlindRotateStdDevNew +
    p.estimateKeySwitchStdDevNew * p.estimateKeySwitchStdDevNew)

/-- `EstimateFailureProbability` (src/unnamed/part_002, lines 787–792):
`erfc(bound / (√2·σ))` with `bound = q/(4·messageModulus)`. -/
noncomputable def estimateFailureProbability (erfc : ℝ → ℝ) (p : NoiseModel) : ℝ :=
  erfc ((p.floatQ / (4 * p.messageModulus)) / (Real.sqrt 2 * p.estimateMaxErrorStdDev))

/-- `EstimateFailureProbabilityNewFDFB_EBS` (src/unnamed/part_002, lines
794–798): `bound = q/(2·messageModulus)`. -/
noncomputable def estimateFailureProbabilityNewFDFB_EBS (erfc : ℝ → ℝ) (p : NoiseModel) : ℝ :=
  erfc ((p.floatQ / (2 * p.messageModulus)) / (Real.sqrt 2 * p.estimateMaxErrorStdDevNewEBS))

/-- `EstimateFailureProbabilityNewFDFB` (src/unnamed/part_002, lines
800–804): `bound = q/(2·messageModulus)`. -/
noncomputable def estimateFailureProbabilityNewFDFB (erfc : ℝ → ℝ) (p : NoiseModel) : ℝ :=
  erfc ((p.floatQ / (2 * p.messageModulus)) / (Real.sqrt 2 * p.estimateMaxErrorStdDevNew))

end NoiseModel

/-- The empty heap. -/
def emptyHeap : Heap := { next := 0, mem := fun _ => [] }

/-- The hierarchy's result, defaulting to the empty result on panic. -/
def hierResult (p : Parameters) (stream : Nat → Nat) (h : Heap) (c : Nat) :
    List Encryptor × Heap × Nat :=
  (newEncryptorHierarchyWithSharedLWEKey p stream h c).getD ([], emptyHeap, 0)

/-! ## Sample values used by the witnesses -/

/-- A small valid parameters literal (`w = 64`). -/
def sampleLit : ParametersLiteral :=
  { lweDimension := 2
    glweRank := 1
    polyDegree := 2
    lookUpTableSize := 2
    lweStdDevBits := 1
    glweStdDevBits := 1
    blockSize := 1
    messageModulus := 2
    blindRotateParameters := { base := 2, level := 1 }
    keySwitchParameters := { base := 2, level := 1 }
    bootstrapOrder := 0 }

/-- `paramsCompile 64 sampleLit`. -/
def sampleParams : Parameters :=
  { lweDimension := 2
    glweDimension := 2
    glweRank := 1
    polyDegree := 2
    logPolyDegree := 1
    lookUpTableSize := 2
    polyExtendFactor := 1
    lweStdDevBits := 1
    glweStdDevBits := 1
    blockSize := 1
    blockCount := 2
    messageModulus := 2
    scale := 9223372036854775808
    logQ := 64
    blindRotateParameters := { base := 2, logBase := 1, level := 1, sizeT := 64 }
    keySwitchParameters := { base := 2, logBase := 1, level := 1, sizeT := 64 }
    bootstrapOrder := 0 }

/-- A parameter record with `polyDegree = 8192` (hierarchy depth 2). -/
def sampleHierParams : Parameters :=
  { sampleParams with
    polyDegree := 8192, glweDimension := 8192, lookUpTableSize := 8192,
    logPolyDegree := 13, lweDimension := 4 }

/-- A valid parameters literal with `polyDegree = 1024` (`w = 64`). -/
def lit1024 : ParametersLiteral :=
  { sampleLit with polyDegree := 1024, lookUpTableSize := 1024 }

/-- A secret key whose buffers live at heap ids 0 and 1. -/
def sampleSecretKey : SecretKey :=
  { lweLargeKey := { id := 0, off := 0, len := 2 }
    lweKey := { id := 0, off := 0, len := 2 }
    glweKey := [{ id := 0, off := 0, len := 2 }]
    fourierGLWEKey := { id := 1, off := 0, len := 2 } }

/-- An encryptor over `sampleParams` with `sampleSecretKey`. -/
def sampleEncryptor : Encryptor :=
  { params := sampleParams, secretKey := sampleSecretKey }

/-- A heap in which ids below 5 are allocated. -/
def sampleHeap : Heap := { next := 5, mem := fun _ => [] }

/-- Placeholder encryptor used as the default of list lookups. -/
def dummyEncryptor : Encryptor := sampleEncryptor

/-- Placeholder slice used as the default of list lookups. -/
def dummySlice : Slice := { id := 0, off := 0, len := 0 }

/-- A small noise model: `n = 4`, `k = 1`, `N = L = 4096` (depth 1),
`e = 1`, `b = 2`. -/
noncomputable def sampleNoise : NoiseModel :=
  { lweDimension := 4
    glweRank := 1
    polyDegree := 4096
    lookUpTableSize := 4096
    polyExtendFactor := 1
    blockSize := 2
    blockCount := 2
    messageModulus := 16
    logQ := 64
    lweStdDev := 1
    glweStdDev := 1
    brBase := 4
    brLevel := 2
    ksBase := 4
    ksLevel := 2 }

/-! ## C2: theorems -/

theorem getD_map_range (n : Nat) (g : Nat → Nat) {j : Nat} (h : j < n) :
    ((List.range n).map g).getD j 0 = g j := by
  rw [List.getD_eq_getElem?_getD, List.getElem?_map, List.getElem?_range h]
  rfl

theorem stepNew_length (w : Nat) (c : List Nat) :
    (stepNew w c).length = c.length / 2 := by
  simp [stepNew]

theorem stepNeg_length (w : Nat) (c : List Nat) :
    (stepNeg w c).length = c.length / 2 := by
  simp [stepNeg]

theorem stepNew_iterate_length (w i : Nat) (c : List Nat) :
    ((stepNew w)^[i] c).length = c.length / 2 ^ i := by
  induction i generalizing c with
  | zero => simp
  | succ i ih =>
    rw [Function.iterate_succ_apply, ih, stepNew_length, Nat.div_div_eq_div_mul,
      pow_succ, mul_comm 2 (2 ^ i), Nat.mul_comm]

theorem decomposeFuncEval_fst_length (w k : Nat) (c : List Nat) :
    (decomposeFuncEval w k c).1.length = k := by
  induction k generalizing c with
  | zero => rfl
  | succ k ih => simp [decomposeFuncEval, ih]

theorem decomposeFuncEval_snd (w k : Nat) (c : List Nat) :
    (decomposeFuncEval w k c).2 = (stepNew w)^[k] c := by
  induction k generalizing c with
  | zero => rfl
  | succ k ih => rw [decomposeFuncEval, ih, Function.iterate_succ_apply]

theorem decomposeFuncEval_fst_getD (w k : Nat) (c : List Nat) {i : Nat} (h : i < k) :
    (decomposeFuncEval w k c).1.getD i [] = stepNeg w ((stepNew w)^[i] c) := by
  induction k generalizing c i with
  | zero => omega
  | succ k ih =>
    cases i with
    | zero => rfl
    | succ i =>
      have := ih (stepNew w c) (i := i) (by omega)
      rw [decomposeFuncEval]
      simpa [Function.iterate_succ_apply] using this

/-- C2: the claim fails on the code.  For the constant function `1` over
message modulus `2` (one halving step), the builders' table recursion
halves each entry before adding — `1/2 + 1/2 = 0` — while the claim's
identity `(cur[0] + cur[1]) / 2 = 1` halves the sum; the computed base
table is `[0]`, not `[1]`. -/
theorem decomposedTables_halvingIdentity_counterexample :
    genDecomposedTables 64 2 2 (fun _ => 1) = ([[0]], [0]) ∧
    stepNew 64 [1, 1] = [0] ∧
    specStepNew 64 [1, 1] = [1] ∧
    stepNew 64 [1, 1] ≠ specStepNew 64 [1, 1] := by
  refine ⟨?_, ?_, ?_, ?_⟩ <;> decide

/-- C2 (amended): the builders compute the decomposition by the
identities `new[j] = cur[j]/2 + cur[j+n/2]/2` and
`negNew[j] = cur[j]/2 − cur[j+n/2]/2`, each entry halved by truncating
division before the wrap-around add/subtract, applied `⌊log₂ e⌋` times;
this produces `⌊log₂ e⌋` negative tables of halving length and a base
table, of length `m/e` when `e` is a power of two. -/
theorem decomposedTables_halvingIdentity_amended (w e m : Nat) (f : Nat → Nat) :
    (genDecomposedTables w e m f).1.length = goLog2 e ∧
    (genDecomposedTables w e m f).2 =
      (stepNew w)^[goLog2 e] ((List.range m).map fun x => f x % 2 ^ w) ∧
    (∀ i, i < goLog2 e →
      (genDecomposedTables w e m f).1.getD i [] =
        stepNeg w ((stepNew w)^[i] ((List.range m).map fun x => f x % 2 ^ w))) ∧
    (∀ i, i < goLog2 e → ((genDecomposedTables w e m f).1.getD i []).length = m / 2 ^ (i + 1)) ∧
    (∀ k, k < 64 → e = 2 ^ k → ((genDecomposedTables w e m f).2).length = m / e) ∧
    (∀ c : List Nat, ∀ j, j < c.length / 2 →
      (stepNew w c).getD j 0 =
        (c.getD j 0 / 2 + c.getD (j + c.length / 2) 0 / 2) % 2 ^ w ∧
      (stepNeg w c).getD j 0 =
        (c.getD j 0 / 2 + (2 ^ w - (c.getD (j + c.length / 2) 0 / 2) % 2 ^ w)) % 2 ^ w) := by
  simp only [genDecomposedTables]
  refine ⟨decomposeFuncEval_fst_length _ _ _, decomposeFuncEval_snd _ _ _, ?_, ?_, ?_, ?_⟩
  · intro i hi
    exact decomposeFuncEval_fst_getD _ _ _ hi
  · intro i hi
    rw [decomposeFuncEval_fst_getD _ _ _ hi, stepNeg_length, stepNew_iterate_length,
      List.length_map, List.length_range, Nat.div_div_eq_div_mul, pow_succ]
  · intro k hk64 hk
    rw [decomposeFuncEval_snd, stepNew_iterate_length, List.length_map, List.length_range, hk,
      goLog2_two_pow hk64]
  · intro c j hj
    constructor
    · rw [stepNew, getD_map_range _ _ hj]
    · rw [stepNeg, getD_map_range _ _ hj, goSub]

/-! ### C5 helper lemmas -/

theorem gadgetCompile_isSome_iff (w : Nat) (g : GadgetParametersLiteral) :
    (gadgetCompile w g).isSome = true ↔
      2 ≤ g.base ∧ isPowerOfTwo g.base = true ∧ 0 < g.level ∧
        (goLog2 g.base : Int) * g.level ≤ (w : Int) := by
  rw [gadgetCompile]
  split_ifs with h
  · simp only [Option.isSome_some, true_iff]
    simp only [gadgetCompileOk, Bool.and_eq_true, Bool.not_eq_true',
      decide_eq_false_iff_not, not_lt, not_le] at h
    exact ⟨h.1.1.1, h.1.1.2, by omega, h.2⟩
  · simp only [Option.isSome_none, Bool.false_eq_true, false_iff]
    intro hc
    apply h
    simp only [gadgetCompileOk, Bool.and_eq_true, Bool.not_eq_true',
      decide_eq_false_iff_not, not_lt, not_le]
    exact ⟨⟨⟨hc.1, hc.2.1⟩, by omega⟩, hc.2.2.2⟩

theorem paramsCompile_isSome_eq (w : Nat) (lit : ParametersLiteral) :
    (paramsCompile w lit).isSome =
      (paramsCompileOk (defaultLit lit) &&
        (gadgetCompile w (defaultLit lit).blindRotateParameters).isSome &&
        (gadgetCompile w (defaultLit lit).keySwitchParameters).isSome) := by
  rw [paramsCompile]
  split_ifs with h
  · cases gadgetCompile w (defaultLit lit).blindRotateParameters <;>
      cases gadgetCompile w (defaultLit lit).keySwitchParameters <;> simp [h, Option.bind]
  · simp [h]

/-- C2 amended, witnessed at `w = 8`, `e = 4`, `m = 8`, `f = id`. -/
theorem decomposedTables_halvingIdentity_amended_witness :
    ((0 : Nat) < goLog2 4 ∧ (2 : Nat) < 64 ∧ (4 : Nat) = 2 ^ 2 ∧ (0 : Nat) < [3, 7].length / 2) ∧
    ((genDecomposedTables 8 4 8 (fun x => x)).1.getD 0 [] =
        stepNeg 8 ((stepNew 8)^[0] ((List.range 8).map fun x => x % 2 ^ 8)) ∧
      ((genDecomposedTables 8 4 8 (fun x => x)).1.getD 0 []).length = 8 / 2 ^ 1 ∧
      ((genDecomposedTables 8 4 8 (fun x => x)).2).length = 8 / 4 ∧
      (stepNew 8 [3, 7]).getD 0 0 =
        ([3, 7].getD 0 0 / 2 + [3, 7].getD (0 + [3, 7].length / 2) 0 / 2) % 2 ^ 8) :=
  ⟨⟨by decide, by decide, by decide, by decide⟩,
    (decomposedTables_halvingIdentity_amended 8 4 8 (fun x => x)).2.2.1 0 (by decide),
    (decomposedTables_halvingIdentity_amended 8 4 8 (fun x => x)).2.2.2.1 0 (by decide),
    (decomposedTables_halvingIdentity_amended 8 4 8 (fun x => x)).2.2.2.2.1 2 (by decide)
      (by decide),
    ((decomposedTables_halvingIdentity_amended 8 4 8 (fun x => x)).2.2.2.2.2 [3, 7] 0
        (by decide)).1⟩

/-! ## C1: theorems -/

/-- C1: the claim fails on the code.  At extend factor `4` and a
decomposed-LUT list of length `3`, `BootstrapExtendedFullDomainAssignNew`
performs an initial `KeySwitchForBootstrapAssign` of the input
ciphertext (and all blind rotations read the key-switched buffer), which
the claimed sequence omits. -/
theorem bootstrapEFDNew_sequence_counterexample :
    bootstrapEFDNewTrace 4 3 ≠ claimedBootstrapEFDNewTrace 4 3 ∧
    (bootstrapEFDNewTrace 4 3).head? =
      some (.keySwitchForBootstrap .argCt .ctKeySwitchForBootstrap) ∧
    (claimedBootstrapEFDNewTrace 4 3).head? =
      some (.blindRotateArbitraryExtended .argCt (.decomposed 0) 2 .ctRotate) := by
  refine ⟨?_, ?_, ?_⟩ <;> decide

/-- C1 (amended): `BootstrapExtendedFullDomainAssignNew` first
key-switches `ct` for bootstrap, then performs steps (i)–(iii) of the
claim on the key-switched ciphertext, then (iv) sample-extracts index 0
of the accumulator into `ctOut`. -/
theorem bootstrapEFDNew_sequence_amended (e len : Nat) (h : 2 ≤ len) :
    bootstrapEFDNewTrace e len = amendedBootstrapEFDNewTrace e len := by
  have hl : len - 1 - 1 = len - 2 := by omega
  simp [bootstrapEFDNewTrace, blindRotateEFDNewTrace, amendedBootstrapEFDNewTrace, hl]

/-- C1 amended, witnessed at `e = 8`, `len = 4`. -/
theorem bootstrapEFDNew_sequence_amended_witness :
    2 ≤ 4 ∧ bootstrapEFDNewTrace 8 4 = amendedBootstrapEFDNewTrace 8 4 :=
  ⟨by decide, bootstrapEFDNew_sequence_amended 8 4 (by decide)⟩

/-! ## C3: theorems -/

/-- C3: the claim fails on the code.  With `L = 4096`, `N = 2048`,
`Q = 2^64` and `x = 2^62`: `round(c·x)·2 = 4096`, which reduces to `0`
modulo `2N = 4096` (the code), but to `4096` modulo `2L = 8192` (the
claim). -/
theorem modSwitchCompress_counterexample :
    modSwitchCompress 2048 4096 (2 ^ 64) (2 ^ 62) = 0 ∧
    specModSwitchCompress 4096 (2 ^ 64) (2 ^ 62) = 4096 ∧
    modSwitchCompress 2048 4096 (2 ^ 64) (2 ^ 62) ≠
      specModSwitchCompress 4096 (2 ^ 64) (2 ^ 62) := by
  have hc : modSwitchConstant 4096 (2 ^ 64) * ((2 ^ 62 : Nat) : ℚ) = ((2048 : ℤ) : ℚ) := by
    rw [modSwitchConstant]
    push_cast
    norm_num
  have h1 : modSwitchCompress 2048 4096 (2 ^ 64) (2 ^ 62) = 0 := by
    rw [modSwitchCompress, hc, round_intCast]
    decide
  have h2 : specModSwitchCompress 4096 (2 ^ 64) (2 ^ 62) = 4096 := by
    rw [specModSwitchCompress, hc, round_intCast]
    decide
  exact ⟨h1, h2, by rw [h1, h2]; decide⟩

/-- C3 (amended): `ModSwitchCompress(x)` equals `round(c·x)·2` reduced
modulo `2N` — twice the polynomial degree — not modulo `2L`; the result
lies in `[0, 2N)` whenever `N > 0`. -/
theorem modSwitchCompress_amended (N L Q x : Nat) :
    modSwitchCompress N L Q x = amendedModSwitchCompress N L Q x ∧
    (0 < N → 0 ≤ modSwitchCompress N L Q x ∧ modSwitchCompress N L Q x < 2 * N) := by
  constructor
  · rw [modSwitchCompress, amendedModSwitchCompress, mul_comm]
  · intro hN
    have h2N : (0 : Int) < 2 * (N : Int) := by positivity
    refine ⟨Int.emod_nonneg _ (by omega), ?_⟩
    have := Int.emod_lt_of_pos (round (modSwitchConstant L Q * x) * 2) h2N
    simpa [modSwitchCompress] using this

/-- C3 amended, witnessed at `N = 2`, `L = 4`, `Q = 16`, `x = 3`. -/
theorem modSwitchCompress_amended_witness :
    (0 < 2) ∧
    (modSwitchCompress 2 4 16 3 = amendedModSwitchCompress 2 4 16 3 ∧
      (0 ≤ modSwitchCompress 2 4 16 3 ∧ modSwitchCompress 2 4 16 3 < 2 * 2)) :=
  ⟨by decide, (modSwitchCompress_amended 2 4 16 3).1,
    (modSwitchCompress_amended 2 4 16 3).2 (by decide)⟩

/-! ## C8: theorems -/

set_option maxRecDepth 2000 in
/-- C8: the code contradicts the claim for `T = uint32`.  In Go,
`T(1)<<63` and `T(1)<<62` are `0` when `T = uint32`, so both compress-LUT
builders fill the whole raw LUT with `0` instead of the codeword
`(Q/(2m))·x + Q/(4m)`; e.g. at `m = 4`, `x = 1` the claim requires
`805306368`.  For `T = uint64` the codeword matches the claim for every
`m` and `x`. -/
theorem genCompressLUT_codeword_failing_input :
    compressCodeword 32 4 1 = 0 ∧
    specCompressCodeword 32 4 1 = 805306368 ∧
    compressCodeword 32 4 1 ≠ specCompressCodeword 32 4 1 ∧
    (genCompressLUTRaw 32 4 64).getD 32 0 = 0 ∧
    (genCompressLUTRaw 64 4 64).getD 32 0 = specCompressCodeword 64 4 1 ∧
    (∀ m x : Nat, compressCodeword 64 m x = specCompressCodeword 64 m x) := by
  refine ⟨by decide, by decide, by decide, by decide, by decide, ?_⟩
  intro m x
  have h1 : (2 ^ 64 : Nat) / (2 * m) = 2 ^ 63 / m := by
    have : (2 ^ 64 : Nat) = 2 * 2 ^ 63 := by norm_num
    rw [this, Nat.mul_div_mul_left _ _ (by norm_num)]
  have h2 : (2 ^ 64 : Nat) / (4 * m) = 2 ^ 62 / m := by
    have : (2 ^ 64 : Nat) = 4 * 2 ^ 62 := by norm_num
    rw [this, Nat.mul_div_mul_left _ _ (by norm_num)]
  rw [compressCodeword, specCompressCodeword, h1, h2]
  simp only [wrap]
  rw [Nat.mod_eq_of_lt (a := 2 ^ 63) (by norm_num),
    Nat.mod_eq_of_lt (a := 2 ^ 62) (by norm_num), Nat.mod_add_mod]

/-! ## C5: theorems -/

/-- C5: the claim fails on the code.  The literal with `BlockSize = -1`
(everything else valid) satisfies every invariant the claim lists —
in particular `n mod b = 0`, since `2 mod (−1) = 0` in Go — yet
`Compile` panics at its `BlockSize <= 0` check, which the claim
omits. -/
theorem paramsCompile_blockSize_counterexample :
    claimCompileInvariants 64 (defaultLit
      { lweDimension := 2, glweRank := 1, polyDegree := 2, lookUpTableSize := 2,
        lweStdDevBits := 1, glweStdDevBits := 1, blockSize := -1, messageModulus := 2,
        blindRotateParameters := { base := 2, level := 1 },
        keySwitchParameters := { base := 2, level := 1 }, bootstrapOrder := 0 }) ∧
    paramsCompile 64
      { lweDimension := 2, glweRank := 1, polyDegree := 2, lookUpTableSize := 2,
        lweStdDevBits := 1, glweStdDevBits := 1, blockSize := -1, messageModulus := 2,
        blindRotateParameters := { base := 2, level := 1 },
        keySwitchParameters := { base := 2, level := 1 }, bootstrapOrder := 0 } = none := by
  constructor
  · simp only [claimCompileInvariants]
    decide
  · decide

/-- C5 (amended): after defaulting, `Compile` returns normally if and
only if the claim's invariant list holds *and additionally* the block
size is positive (`b > 0`); equivalently, it panics exactly when one of
these fails.  (The standard-deviation invariants are the IEEE-754 tests
"not `≤ 0`" on the float bit patterns.) -/
theorem paramsCompile_panicIff_amended (w : Nat) (lit : ParametersLiteral) :
    (paramsCompile w lit).isSome = true ↔ amendedCompileInvariants w (defaultLit lit) := by
  rw [paramsCompile_isSome_eq, Bool.and_eq_true, Bool.and_eq_true,
    gadgetCompile_isSome_iff, gadgetCompile_isSome_iff,
    amendedCompileInvariants, claimCompileInvariants]
  simp only [paramsCompileOk, Bool.and_eq_true, Bool.not_eq_true',
    decide_eq_false_iff_not, decide_eq_true_eq, not_lt, not_le, ne_eq, not_not,
    Bool.not_eq_true]
  tauto

/-! ## C7: theorems -/

theorem putUint64BE_length (v : Nat) : (putUint64BE v).length = 8 := rfl

theorem beUint64_putUint64BE {v : Nat} (h : v < 2 ^ 64) :
    beUint64 (putUint64BE v) = v := by
  simp only [beUint64, putUint64BE, List.getD_cons_zero, List.getD_cons_succ]
  omega

theorem take_putUint64BE (v : Nat) (rest : List Nat) :
    (putUint64BE v ++ rest).take 8 = putUint64BE v :=
  List.take_left' (putUint64BE_length v)

theorem drop_putUint64BE (v : Nat) (rest : List Nat) :
    (putUint64BE v ++ rest).drop 8 = rest :=
  List.drop_left' (putUint64BE_length v)

theorem toUInt64_lt (i : Int) : toUInt64 i < 2 ^ 64 := by
  have h1 : 0 ≤ i.emod (2 ^ 64) := Int.emod_nonneg _ (by norm_num)
  have h2 : i.emod (2 ^ 64) < 2 ^ 64 := Int.emod_lt_of_pos _ (by norm_num)
  simp only [toUInt64]
  omega

theorem toInt64_toUInt64 {i : Int} (h0 : 0 ≤ i) (h1 : i < 2 ^ 63) :
    toInt64 (toUInt64 i) = i := by
  have hm : i.emod (2 ^ 64) = i := Int.emod_eq_of_lt h0 (by nlinarith)
  simp only [toUInt64, toInt64, hm]
  split_ifs with h
  · exact Int.toNat_of_nonneg h0
  · omega

theorem gadgetWriteTo_length (g : GadgetParameters) : (gadgetWriteTo g).length = 16 := rfl

/-- Reading back a written gadget block (followed by arbitrary bytes)
recovers the compiled value and the remaining bytes. -/
theorem gadgetReadFrom_writeTo (w : Nat) (g : GadgetParameters) (rest : List Nat)
    (hw : w ≤ 64) (hbase : g.base < 2 ^ w) (hlvl0 : 0 ≤ g.level) (hlvl : g.level < 2 ^ 63)
    (hcomp : gadgetCompile w (gadgetLiteral g) = some g) :
    gadgetReadFrom w (gadgetWriteTo g ++ rest) = some (g, rest) := by
  have hb64 : g.base < 2 ^ 64 :=
    lt_of_lt_of_le hbase (Nat.pow_le_pow_right (by norm_num) hw)
  have hassoc : gadgetWriteTo g ++ rest = putUint64BE g.base ++ (putUint64BE (toUInt64 g.level) ++ rest) := by
    simp [gadgetWriteTo]
  rw [gadgetReadFrom, hassoc]
  rw [if_neg (by simp [putUint64BE])]
  rw [take_putUint64BE, drop_putUint64BE, take_putUint64BE]
  rw [beUint64_putUint64BE hb64, beUint64_putUint64BE (toUInt64_lt _),
    toInt64_toUInt64 hlvl0 hlvl]
  have hwrap : wrap w g.base = g.base := Nat.mod_eq_of_lt hbase
  rw [hwrap]
  have : ({ base := g.base, level := g.level } : GadgetParametersLiteral) = gadgetLiteral g := rfl
  rw [this, hcomp]
  show some (g, List.drop 16 (putUint64BE g.base ++ (putUint64BE (toUInt64 g.level) ++ rest))) = some (g, rest)
  rw [show (16 : Nat) = 8 + 8 by rfl, ← List.drop_drop, drop_putUint64BE, drop_putUint64BE]

theorem gadgetCompile_some_elim {w : Nat} {glit : GadgetParametersLiteral}
    {g : GadgetParameters} (h : gadgetCompile w glit = some g) :
    g.base = glit.base ∧ g.level = glit.level ∧ 0 < g.level ∧
      gadgetCompile w (gadgetLiteral g) = some g := by
  rw [gadgetCompile] at h
  split_ifs at h with hok
  have hg : g =
      { base := glit.base
        logBase := goLog2 glit.base
        level := glit.level
        sizeT := w } := (Option.some.inj h).symm
  subst hg
  refine ⟨rfl, rfl, ?_, ?_⟩
  · simp only [gadgetCompileOk, Bool.and_eq_true, Bool.not_eq_true',
      decide_eq_false_iff_not, not_lt, not_le] at hok
    exact hok.1.2
  · have hre : gadgetCompile w glit =
        some { base := glit.base
               logBase := goLog2 glit.base
               level := glit.level
               sizeT := w } := by
      rw [gadgetCompile, if_pos hok]
    exact hre

theorem defaultLit_idem (lit : ParametersLiteral) :
    defaultLit (defaultLit lit) = defaultLit lit := by
  by_cases hL : lit.lookUpTableSize = 0 <;> by_cases hB : lit.blockSize = 0 <;>
    by_cases hN : lit.polyDegree = 0 <;> simp [defaultLit, hL, hB, hN]

/-- C7: serialization round trip.  For every parameter set compiled from
a literal (with its integer fields in Go's `int`/`uint64`/`T` ranges),
writing and re-reading recovers the same compiled value; a gadget block
is exactly 16 bytes (two big-endian `u64`) and the full encoding is
exactly `8·8 + 16 + 16 + 1 = 97` bytes: eight `u64` header fields, two
gadget blocks and one order byte. -/
theorem parameters_serialization_roundTrip (w : Nat) (lit : ParametersLiteral)
    (p : Parameters) (hw : w ≤ 64) (hcomp : paramsCompile w lit = some p)
    (hbounds : p.lweDimension < 2 ^ 63 ∧ p.glweRank < 2 ^ 63 ∧ p.polyDegree < 2 ^ 63 ∧
      p.lookUpTableSize < 2 ^ 63 ∧ p.blockSize < 2 ^ 63 ∧
      p.lweStdDevBits < 2 ^ 64 ∧ p.glweStdDevBits < 2 ^ 64 ∧ p.messageModulus < 2 ^ w ∧
      p.blindRotateParameters.base < 2 ^ w ∧ p.blindRotateParameters.level < 2 ^ 63 ∧
      p.keySwitchParameters.base < 2 ^ w ∧ p.keySwitchParameters.level < 2 ^ 63) :
    paramsReadFrom w (paramsWriteTo p) = some p ∧
    (paramsWriteTo p).length = 8 * 8 + 16 + 16 + 1 ∧
    (gadgetWriteTo p.blindRotateParameters).length = 16 ∧
    gadgetReadFrom w (gadgetWriteTo p.blindRotateParameters) =
      some (p.blindRotateParameters, []) := by
  obtain ⟨hb1, hb2, hb3, hb4, hb5, hb6, hb7, hb8, hb9, hb10, hb11, hb12⟩ := hbounds
  have hcomp0 := hcomp
  -- unpack the successful compilation
  rw [paramsCompile] at hcomp
  split_ifs at hcomp with hok
  rcases hbr : gadgetCompile w (defaultLit lit).blindRotateParameters with _ | brk
  · rw [hbr] at hcomp; exact absurd hcomp (by simp [Option.bind])
  rcases hks : gadgetCompile w (defaultLit lit).keySwitchParameters with _ | ksk
  · rw [hbr, hks] at hcomp; exact absurd hcomp (by simp [Option.bind])
  rw [hbr, hks] at hcomp
  simp only [Option.bind_eq_bind, Option.some_bind] at hcomp
  have hp := (Option.some.inj hcomp).symm
  obtain ⟨hbrB, hbrL, hbrPos, hbrRe⟩ := gadgetCompile_some_elim hbr
  obtain ⟨hksB, hksL, hksPos, hksRe⟩ := gadgetCompile_some_elim hks
  -- positivity of the header fields
  have hokP := hok
  simp only [paramsCompileOk, Bool.and_eq_true, Bool.not_eq_true',
    decide_eq_false_iff_not, decide_eq_true_eq, not_lt, not_le, ne_eq, not_not] at hokP
  obtain ⟨⟨⟨⟨⟨⟨⟨⟨⟨⟨hn, hnk⟩, hk⟩, hLN⟩, hsl⟩, hsg⟩, hbs⟩, hnb⟩, hLm⟩, hN2⟩, hord⟩ := hokP
  subst hp
  have e1g : gadgetLiteral brk = (defaultLit lit).blindRotateParameters := by
    have hx : (defaultLit lit).blindRotateParameters =
        { base := (defaultLit lit).blindRotateParameters.base
          level := (defaultLit lit).blindRotateParameters.level } := rfl
    rw [gadgetLiteral, hbrB, hbrL, ← hx]
  have e2g : gadgetLiteral ksk = (defaultLit lit).keySwitchParameters := by
    have hx : (defaultLit lit).keySwitchParameters =
        { base := (defaultLit lit).keySwitchParameters.base
          level := (defaultLit lit).keySwitchParameters.level } := rfl
    rw [gadgetLiteral, hksB, hksL, ← hx]
  refine ⟨?_, ?_, rfl, ?_⟩
  · -- the full read-back
    have hshape : paramsWriteTo
        { lweDimension := (defaultLit lit).lweDimension
          glweDimension := (defaultLit lit).glweRank * (defaultLit lit).polyDegree
          glweRank := (defaultLit lit).glweRank
          polyDegree := (defaultLit lit).polyDegree
          logPolyDegree := goLog2 (defaultLit lit).polyDegree.toNat
          lookUpTableSize := (defaultLit lit).lookUpTableSize
          polyExtendFactor := (defaultLit lit).lookUpTableSize.tdiv (defaultLit lit).polyDegree
          lweStdDevBits := (defaultLit lit).lweStdDevBits
          glweStdDevBits := (defaultLit lit).glweStdDevBits
          blockSize := (defaultLit lit).blockSize
          blockCount := (defaultLit lit).lweDimension.tdiv (defaultLit lit).blockSize
          messageModulus := (defaultLit lit).messageModulus
          scale := wrap w (divRound (2 ^ (w - 1)) (defaultLit lit).messageModulus * 2)
          logQ := w
          blindRotateParameters := brk
          keySwitchParameters := ksk
          bootstrapOrder := (defaultLit lit).bootstrapOrder } =
        putUint64BE (toUInt64 (defaultLit lit).lweDimension) ++
        (putUint64BE (toUInt64 (defaultLit lit).glweRank) ++
        (putUint64BE (toUInt64 (defaultLit lit).polyDegree) ++
        (putUint64BE (toUInt64 (defaultLit lit).lookUpTableSize) ++
        (putUint64BE (defaultLit lit).lweStdDevBits ++
        (putUint64BE (defaultLit lit).glweStdDevBits ++
        (putUint64BE (toUInt64 (defaultLit lit).blockSize) ++
        (putUint64BE (defaultLit lit).messageModulus ++
        (gadgetWriteTo brk ++
        (gadgetWriteTo ksk ++
        [toUInt64 (defaultLit lit).bootstrapOrder % 256]))))))))) := by
      simp [paramsWriteTo, List.append_assoc]
    have D : ∀ (v : Nat) (Y : List Nat) (k : Nat),
        (putUint64BE v ++ Y).drop (k + 8) = Y.drop k := fun _ _ _ => rfl
    have hb1' : (defaultLit lit).lweDimension < 2 ^ 63 := hb1
    have hb2' : (defaultLit lit).glweRank < 2 ^ 63 := hb2
    have hb3' : (defaultLit lit).polyDegree < 2 ^ 63 := hb3
    have hb4' : (defaultLit lit).lookUpTableSize < 2 ^ 63 := hb4
    have hb5' : (defaultLit lit).blockSize < 2 ^ 63 := hb5
    have hb6' : (defaultLit lit).lweStdDevBits < 2 ^ 64 := hb6
    have hb7' : (defaultLit lit).glweStdDevBits < 2 ^ 64 := hb7
    have hb8' : (defaultLit lit).messageModulus < 2 ^ w := hb8
    have hN0 : 0 < (defaultLit lit).polyDegree := by
      simp only [isPowerOfTwoInt, Bool.and_eq_true, decide_eq_true_eq] at hN2
      exact hN2.1
    have f1 : toInt64 (beUint64 (putUint64BE (toUInt64 (defaultLit lit).lweDimension))) =
        (defaultLit lit).lweDimension := by
      rw [beUint64_putUint64BE (toUInt64_lt _), toInt64_toUInt64 (le_of_lt hn) hb1']
    have f2 : toInt64 (beUint64 (putUint64BE (toUInt64 (defaultLit lit).glweRank))) =
        (defaultLit lit).glweRank := by
      rw [beUint64_putUint64BE (toUInt64_lt _), toInt64_toUInt64 (le_of_lt hk) hb2']
    have f3 : toInt64 (beUint64 (putUint64BE (toUInt64 (defaultLit lit).polyDegree))) =
        (defaultLit lit).polyDegree := by
      rw [beUint64_putUint64BE (toUInt64_lt _), toInt64_toUInt64 (le_of_lt hN0) hb3']
    have f4 : toInt64 (beUint64 (putUint64BE (toUInt64 (defaultLit lit).lookUpTableSize))) =
        (defaultLit lit).lookUpTableSize := by
      rw [beUint64_putUint64BE (toUInt64_lt _),
        toInt64_toUInt64 (le_of_lt (lt_of_lt_of_le hN0 hLN)) hb4']
    have f5 : toInt64 (beUint64 (putUint64BE (toUInt64 (defaultLit lit).blockSize))) =
        (defaultLit lit).blockSize := by
      rw [beUint64_putUint64BE (toUInt64_lt _), toInt64_toUInt64 (le_of_lt hbs) hb5']
    have f6 : beUint64 (putUint64BE (defaultLit lit).lweStdDevBits) =
        (defaultLit lit).lweStdDevBits := beUint64_putUint64BE hb6'
    have f7 : beUint64 (putUint64BE (defaultLit lit).glweStdDevBits) =
        (defaultLit lit).glweStdDevBits := beUint64_putUint64BE hb7'
    have f8 : wrap w (beUint64 (putUint64BE (defaultLit lit).messageModulus)) =
        (defaultLit lit).messageModulus := by
      rw [beUint64_putUint64BE
        (lt_of_lt_of_le hb8' (Nat.pow_le_pow_right (by norm_num) hw))]
      exact Nat.mod_eq_of_lt hb8'
    have horder : ((toUInt64 (defaultLit lit).bootstrapOrder % 256 : Nat) : Int) =
        (defaultLit lit).bootstrapOrder := by
      rcases hord with h | h <;> rw [h] <;> rfl
    have hdfl : paramsCompile w (defaultLit lit) = paramsCompile w lit := by
      simp only [paramsCompile, defaultLit_idem]
    rw [hshape, paramsReadFrom]
    rw [if_neg (by simp [putUint64BE, gadgetWriteTo])]
    rw [show (64 : Nat) = 56 + 8 from rfl, show (56 : Nat) = 48 + 8 from rfl,
      show (48 : Nat) = 40 + 8 from rfl, show (40 : Nat) = 32 + 8 from rfl,
      show (32 : Nat) = 24 + 8 from rfl, show (24 : Nat) = 16 + 8 from rfl,
      show (16 : Nat) = 8 + 8 from rfl]
    simp only [D, drop_putUint64BE, take_putUint64BE, List.drop_zero]
    rw [gadgetReadFrom_writeTo w brk _ hw hb9 (le_of_lt hbrPos) hb10 hbrRe]
    simp only [Option.some_bind]
    rw [gadgetReadFrom_writeTo w ksk _ hw hb11 (le_of_lt hksPos) hb12 hksRe]
    simp only [Option.some_bind]
    rw [if_neg (by simp)]
    simp only [List.getD_cons_zero]
    rw [f1, f2, f3, f4, f5, f6, f7, f8, horder, e1g, e2g]
    exact hdfl.trans hcomp0
  · simp [paramsWriteTo, gadgetWriteTo, putUint64BE]
  · rw [← List.append_nil (gadgetWriteTo brk)]
    exact gadgetReadFrom_writeTo w brk [] hw hb9 (le_of_lt hbrPos) hb10 hbrRe

/-- C7, witnessed at `w = 64` on `sampleLit`/`sampleParams`. -/
theorem parameters_serialization_roundTrip_witness :
    ((64 : Nat) ≤ 64 ∧ paramsCompile 64 sampleLit = some sampleParams ∧
      (sampleParams.lweDimension < 2 ^ 63 ∧ sampleParams.glweRank < 2 ^ 63 ∧
        sampleParams.polyDegree < 2 ^ 63 ∧ sampleParams.lookUpTableSize < 2 ^ 63 ∧
        sampleParams.blockSize < 2 ^ 63 ∧ sampleParams.lweStdDevBits < 2 ^ 64 ∧
        sampleParams.glweStdDevBits < 2 ^ 64 ∧ sampleParams.messageModulus < 2 ^ 64 ∧
        sampleParams.blindRotateParameters.base < 2 ^ 64 ∧
        sampleParams.blindRotateParameters.level < 2 ^ 63 ∧
        sampleParams.keySwitchParameters.base < 2 ^ 64 ∧
        sampleParams.keySwitchParameters.level < 2 ^ 63)) ∧
    (paramsReadFrom 64 (paramsWriteTo sampleParams) = some sampleParams ∧
      (paramsWriteTo sampleParams).length = 8 * 8 + 16 + 16 + 1 ∧
      (gadgetWriteTo sampleParams.blindRotateParameters).length = 16 ∧
      gadgetReadFrom 64 (gadgetWriteTo sampleParams.blindRotateParameters) =
        some (sampleParams.blindRotateParameters, [])) :=
  ⟨⟨by decide, by decide, by decide⟩,
    parameters_serialization_roundTrip 64 sampleLit sampleParams (by decide) (by decide)
      (by decide)⟩

/-! ## C4: theorems -/

namespace NoiseModel

theorem hVal_nonneg (p : NoiseModel) : 0 ≤ p.hVal := by
  unfold hVal
  positivity

theorem floatQ_nonneg (p : NoiseModel) : 0 ≤ p.floatQ := by
  unfold floatQ
  positivity

theorem modSwitchVar_nonneg (p : NoiseModel) : 0 ≤ p.modSwitchVar := by
  have h := p.hVal_nonneg
  unfold modSwitchVar
  have hq := p.floatQ_nonneg
  apply div_nonneg _ (by positivity)
  apply mul_nonneg (mul_nonneg (by linarith) hq) hq

theorem modSwitchNewVar_nonneg (p : NoiseModel) : 0 ≤ p.modSwitchNewVar := by
  have h := p.hVal_nonneg
  unfold modSwitchNewVar
  have hq := p.floatQ_nonneg
  apply div_nonneg _ (by positivity)
  apply mul_nonneg (mul_nonneg (by linarith) hq) hq

theorem blindRotateVar_nonneg (p : NoiseModel)
    (h1 : p.lweDimension ≤ p.glweRank * p.polyDegree) : 0 ≤ p.blindRotateVar := by
  have hh := p.hVal_nonneg
  have hq := p.floatQ_nonneg
  have hkn : (p.lweDimension : ℝ) ≤ (p.glweRank : ℝ) * p.polyDegree := by
    exact_mod_cast h1
  unfold blindRotateVar
  apply add_nonneg
  · apply div_nonneg _ (by positivity)
    apply mul_nonneg (mul_nonneg hh (by linarith)) (mul_nonneg hq hq)
  · have e : (p.lweDimension : ℝ) *
        ((p.brLevel : ℝ) * ((p.glweRank : ℝ) + 1) * p.polyDegree * p.glweStdDevQ *
          p.glweStdDevQ * p.brBase * p.brBase) / 6 =
        ((p.lweDimension : ℝ) * ((p.brLevel : ℝ) * ((p.glweRank : ℝ) + 1) * p.polyDegree *
          p.brBase * p.brBase) / 6) * (p.glweStdDevQ * p.glweStdDevQ) := by ring
    rw [e]
    exact mul_nonneg (by positivity) (mul_self_nonneg _)

theorem blindRotateVarAt_nonneg (p : NoiseModel) (i : Nat)
    (h : p.lweDimension * 2 ^ (i + 1) ≤ p.glweRank * p.polyDegree) :
    0 ≤ p.blindRotateVarAt i := by
  have hh := p.hVal_nonneg
  have hq := p.floatQ_nonneg
  have hkn : (p.lweDimension : ℝ) ≤ (p.glweRank : ℝ) * ((p.polyDegree : ℝ) / 2 ^ (i + 1)) := by
    have hc : (p.lweDimension : ℝ) * 2 ^ (i + 1) ≤ (p.glweRank : ℝ) * p.polyDegree := by
      exact_mod_cast h
    rw [mul_div_assoc', le_div_iff (by positivity)]
    linarith
  unfold blindRotateVarAt
  apply add_nonneg
  · apply div_nonneg _ (by positivity)
    apply mul_nonneg (mul_nonneg hh (by linarith)) (mul_nonneg hq hq)
  · have e : (p.lweDimension : ℝ) *
        ((p.brLevel : ℝ) * ((p.glweRank : ℝ) + 1) * ((p.polyDegree : ℝ) / 2 ^ (i + 1)) *
          p.glweStdDevQ * p.glweStdDevQ * p.brBase * p.brBase) / 6 =
        ((p.lweDimension : ℝ) * ((p.brLevel : ℝ) * ((p.glweRank : ℝ) + 1) *
          ((p.polyDegree : ℝ) / 2 ^ (i + 1)) * p.brBase * p.brBase) / 6) *
          (p.glweStdDevQ * p.glweStdDevQ) := by ring
    rw [e]
    exact mul_nonneg (by positivity) (mul_self_nonneg _)

theorem keySwitchVar_nonneg (p : NoiseModel)
    (h1 : p.lweDimension ≤ p.glweRank * p.polyDegree) : 0 ≤ p.keySwitchVar := by
  have hq := p.floatQ_nonneg
  have hkn : (p.lweDimension : ℝ) ≤ (p.glweRank : ℝ) * p.polyDegree := by exact_mod_cast h1
  unfold keySwitchVar
  apply add_nonneg
  · apply div_nonneg _ (by positivity)
    apply mul_nonneg (by apply div_nonneg (by linarith); norm_num) (mul_nonneg hq hq)
  · have e : ((p.glweRank : ℝ) * p.polyDegree - p.lweDimension) *
        (p.lweStdDevQ * p.lweStdDevQ * p.ksLevel * p.ksBase * p.ksBase) / 12 =
        (((p.glweRank : ℝ) * p.polyDegree - p.lweDimension) *
          ((p.ksLevel : ℝ) * p.ksBase * p.ksBase) / 12) * (p.lweStdDevQ * p.lweStdDevQ) := by
      ring
    rw [e]
    refine mul_nonneg ?_ (mul_self_nonneg _)
    apply div_nonneg _ (by norm_num)
    exact mul_nonneg (by linarith) (by positivity)

theorem keySwitchVarAt_nonneg (p : NoiseModel) (i : Nat)
    (h : p.lweDimension * 2 ^ (i + 1) ≤ p.glweRank * p.polyDegree) :
    0 ≤ p.keySwitchVarAt i := by
  have hq := p.floatQ_nonneg
  have hkn : (p.lweDimension : ℝ) ≤ (p.glweRank : ℝ) * ((p.polyDegree : ℝ) / 2 ^ (i + 1)) := by
    have hc : (p.lweDimension : ℝ) * 2 ^ (i + 1) ≤ (p.glweRank : ℝ) * p.polyDegree := by
      exact_mod_cast h
    rw [mul_div_assoc', le_div_iff (by positivity)]
    linarith
  unfold keySwitchVarAt
  apply add_nonneg
  · apply div_nonneg _ (by positivity)
    apply mul_nonneg (by apply div_nonneg (by linarith); norm_num) (mul_nonneg hq hq)
  · have e : ((p.glweRank : ℝ) * ((p.polyDegree : ℝ) / 2 ^ (i + 1)) - p.lweDimension) *
        (p.lweStdDevQ * p.lweStdDevQ * p.ksLevel * p.ksBase * p.ksBase) / 12 =
        (((p.glweRank : ℝ) * ((p.polyDegree : ℝ) / 2 ^ (i + 1)) - p.lweDimension) *
          ((p.ksLevel : ℝ) * p.ksBase * p.ksBase) / 12) * (p.lweStdDevQ * p.lweStdDevQ) := by
      ring
    rw [e]
    refine mul_nonneg ?_ (mul_self_nonneg _)
    apply div_nonneg _ (by norm_num)
    exact mul_nonneg (by linarith) (by positivity)

theorem depth_pow_le (p : NoiseModel) {i : Nat} (hi : i < p.noiseDepth)
    (h3 : p.lweDimension * 2 ^ p.noiseDepth ≤ p.glweRank * p.polyDegree) :
    p.lweDimension * 2 ^ (i + 1) ≤ p.glweRank * p.polyDegree :=
  le_trans
    (Nat.mul_le_mul_left _ (Nat.pow_le_pow_right (by norm_num) (by omega)))
    h3

theorem blindRotateNewVarTotal_nonneg (p : NoiseModel)
    (h3 : p.lweDimension * 2 ^ p.noiseDepth ≤ p.glweRank * p.polyDegree) :
    0 ≤ p.blindRotateNewVarTotal := by
  unfold blindRotateNewVarTotal
  apply add_nonneg
  · exact Finset.sum_nonneg fun i hi =>
      p.blindRotateVarAt_nonneg i (p.depth_pow_le (Finset.mem_range.mp hi) h3)
  · split_ifs with hd
    · exact p.blindRotateVarAt_nonneg _ (by
        have : p.noiseDepth - 1 + 1 = p.noiseDepth := by omega
        rw [this]
        exact h3)
    · exact le_refl 0

theorem keySwitchNewVarTotal_nonneg (p : NoiseModel)
    (h3 : p.lweDimension * 2 ^ p.noiseDepth ≤ p.glweRank * p.polyDegree) :
    0 ≤ p.keySwitchNewVarTotal := by
  unfold keySwitchNewVarTotal
  apply add_nonneg
  · exact Finset.sum_nonneg fun i hi =>
      p.keySwitchVarAt_nonneg i (p.depth_pow_le (Finset.mem_range.mp hi) h3)
  · split_ifs with hd
    · exact p.keySwitchVarAt_nonneg _ (by
        have : p.noiseDepth - 1 + 1 = p.noiseDepth := by omega
        rw [this]
        exact h3)
    · exact le_refl 0

end NoiseModel

/-- C4: the three failure-probability estimators are
`erfc(bound / (√2·σ))` where `σ² = σ_MS² + σ_BR² + σ_KS²` (the variances
of the component estimators), with `bound = Q/(4p)` for the classical
estimator and `Q/(2p)` for the two FDFB estimators; on the EBS path the
blind-rotate variance is scaled by `log₂(e) + 1`. -/
theorem noiseEstimators_erfc_shape (erfc : ℝ → ℝ) (p : NoiseModel)
    (h1 : p.lweDimension ≤ p.glweRank * p.polyDegree)
    (h2 : 1 ≤ p.polyExtendFactor)
    (h3 : p.lweDimension * 2 ^ p.noiseDepth ≤ p.glweRank * p.polyDegree) :
    p.estimateMaxErrorStdDev ^ 2 = p.modSwitchVar + p.blindRotateVar + p.keySwitchVar ∧
    p.estimateMaxErrorStdDevNewEBS ^ 2 =
      p.modSwitchNewVar + (p.logExtendFactor + 1) * p.blindRotateVar + p.keySwitchVar ∧
    p.estimateMaxErrorStdDevNew ^ 2 =
      p.modSwitchNewVar + p.blindRotateNewVarTotal + p.keySwitchNewVarTotal ∧
    p.estimateFailureProbability erfc =
      erfc ((p.floatQ / (4 * p.messageModulus)) /
        (Real.sqrt 2 * Real.sqrt (p.modSwitchVar + p.blindRotateVar + p.keySwitchVar))) ∧
    p.estimateFailureProbabilityNewFDFB_EBS erfc =
      erfc ((p.floatQ / (2 * p.messageModulus)) /
        (Real.sqrt 2 * Real.sqrt (p.modSwitchNewVar +
          (p.logExtendFactor + 1) * p.blindRotateVar + p.keySwitchVar))) ∧
    p.estimateFailureProbabilityNewFDFB erfc =
      erfc ((p.floatQ / (2 * p.messageModulus)) /
        (Real.sqrt 2 * Real.sqrt (p.modSwitchNewVar + p.blindRotateNewVarTotal +
          p.keySwitchNewVarTotal))) := by
  have hms := p.modSwitchVar_nonneg
  have hmsN := p.modSwitchNewVar_nonneg
  have hbrV := p.blindRotateVar_nonneg h1
  have hksV := p.keySwitchVar_nonneg h1
  have hbrT := p.blindRotateNewVarTotal_nonneg h3
  have hksT := p.keySwitchNewVarTotal_nonneg h3
  have hlog : 0 ≤ p.logExtendFactor := by
    unfold NoiseModel.logExtendFactor
    exact Real.logb_nonneg one_lt_two (by exact_mod_cast h2)
  have ems : p.estimateModSwitchStdDev * p.estimateModSwitchStdDev = p.modSwitchVar :=
    Real.mul_self_sqrt hms
  have emsN : p.estimateModSwitchNewStdDev * p.estimateModSwitchNewStdDev =
      p.modSwitchNewVar := Real.mul_self_sqrt hmsN
  have ebr : p.estimateBlindRotateStdDev * p.estimateBlindRotateStdDev = p.blindRotateVar :=
    Real.mul_self_sqrt hbrV
  have eks : p.estimateKeySwitchStdDev * p.estimateKeySwitchStdDev = p.keySwitchVar :=
    Real.mul_self_sqrt hksV
  have ebrT : p.estimateBlindRotateStdDevNew * p.estimateBlindRotateStdDevNew =
      p.blindRotateNewVarTotal := Real.mul_self_sqrt hbrT
  have eksT : p.estimateKeySwitchStdDevNew * p.estimateKeySwitchStdDevNew =
      p.keySwitchNewVarTotal := Real.mul_self_sqrt hksT
  have eσ : p.estimateMaxErrorStdDev =
      Real.sqrt (p.modSwitchVar + p.blindRotateVar + p.keySwitchVar) := by
    unfold NoiseModel.estimateMaxErrorStdDev
    rw [ems, ebr, eks]
  have eσE : p.estimateMaxErrorStdDevNewEBS =
      Real.sqrt (p.modSwitchNewVar + (p.logExtendFactor + 1) * p.blindRotateVar +
        p.keySwitchVar) := by
    unfold NoiseModel.estimateMaxErrorStdDevNewEBS
    rw [emsN, eks, mul_assoc, ebr]
  have eσN : p.estimateMaxErrorStdDevNew =
      Real.sqrt (p.modSwitchNewVar + p.blindRotateNewVarTotal + p.keySwitchNewVarTotal) := by
    unfold NoiseModel.estimateMaxErrorStdDevNew
    rw [emsN, ebrT, eksT]
  refine ⟨?_, ?_, ?_, ?_, ?_, ?_⟩
  · rw [eσ]
    exact Real.sq_sqrt (by linarith)
  · rw [eσE]
    refine Real.sq_sqrt ?_
    have : 0 ≤ (p.logExtendFactor + 1) * p.blindRotateVar :=
      mul_nonneg (by linarith) hbrV
    linarith
  · rw [eσN]
    exact Real.sq_sqrt (by linarith)
  · unfold NoiseModel.estimateFailureProbability
    rw [eσ]
  · unfold NoiseModel.estimateFailureProbabilityNewFDFB_EBS
    rw [eσE]
  · unfold NoiseModel.estimateFailureProbabilityNewFDFB
    rw [eσN]

/-- C4, witnessed on `sampleNoise` with `erfc = id`. -/
theorem noiseEstimators_erfc_shape_witness :
    (sampleNoise.lweDimension ≤ sampleNoise.glweRank * sampleNoise.polyDegree ∧
      1 ≤ sampleNoise.polyExtendFactor ∧
      sampleNoise.lweDimension * 2 ^ sampleNoise.noiseDepth ≤
        sampleNoise.glweRank * sampleNoise.polyDegree) ∧
    (sampleNoise.estimateMaxErrorStdDev ^ 2 =
        sampleNoise.modSwitchVar + sampleNoise.blindRotateVar + sampleNoise.keySwitchVar ∧
      sampleNoise.estimateMaxErrorStdDevNewEBS ^ 2 =
        sampleNoise.modSwitchNewVar +
          (sampleNoise.logExtendFactor + 1) * sampleNoise.blindRotateVar +
          sampleNoise.keySwitchVar ∧
      sampleNoise.estimateMaxErrorStdDevNew ^ 2 =
        sampleNoise.modSwitchNewVar + sampleNoise.blindRotateNewVarTotal +
          sampleNoise.keySwitchNewVarTotal ∧
      sampleNoise.estimateFailureProbability id =
        id ((sampleNoise.floatQ / (4 * sampleNoise.messageModulus)) /
          (Real.sqrt 2 * Real.sqrt (sampleNoise.modSwitchVar + sampleNoise.blindRotateVar +
            sampleNoise.keySwitchVar))) ∧
      sampleNoise.estimateFailureProbabilityNewFDFB_EBS id =
        id ((sampleNoise.floatQ / (2 * sampleNoise.messageModulus)) /
          (Real.sqrt 2 * Real.sqrt (sampleNoise.modSwitchNewVar +
            (sampleNoise.logExtendFactor + 1) * sampleNoise.blindRotateVar +
            sampleNoise.keySwitchVar))) ∧
      sampleNoise.estimateFailureProbabilityNewFDFB id =
        id ((sampleNoise.floatQ / (2 * sampleNoise.messageModulus)) /
          (Real.sqrt 2 * Real.sqrt (sampleNoise.modSwitchNewVar +
            sampleNoise.blindRotateNewVarTotal + sampleNoise.keySwitchNewVarTotal)))) :=
  ⟨⟨by decide, by decide, by decide⟩,
    noiseEstimators_erfc_shape id sampleNoise (by decide) (by decide) (by decide)⟩

/-! ## C9, C6, C10: theorems on the heap model -/

theorem Heap.read_alloc_old {h : Heap} {n : Nat} {s : Slice} (hs : s.id ≠ h.next) (i : Nat) :
    (h.alloc n).2.read s i = h.read s i := by
  simp only [Heap.alloc, Heap.read]
  rw [if_neg hs]

theorem Heap.read_write_other {h : Heap} {s t : Slice} (hne : t.id ≠ s.id) (i j v : Nat) :
    (h.write s i v).read t j = h.read t j := by
  simp only [Heap.write, Heap.read]
  rw [if_neg hne]

theorem Heap.read_fill_other (stream : Nat → Nat) (s : Slice) (c : Nat) (h : Heap)
    (n : Nat) {t : Slice} (hne : t.id ≠ s.id) (j : Nat) :
    (Heap.fill stream s c h n).read t j = h.read t j := by
  induction n with
  | zero => rfl
  | succ n ih => rw [Heap.fill, Heap.read_write_other hne, ih]

/-- C9: `GenSecretKey` returns a freshly allocated secret key (its
buffers are new heap ids), leaves the receiving `Encryptor` — in
particular its `SecretKey` field — unchanged, and does not write to any
previously allocated buffer. -/
theorem genSecretKey_fresh_frame (e : Encryptor) (stream : Nat → Nat) (h : Heap) (c : Nat)
    (hwf : e.secretKey.lweLargeKey.id < h.next) :
    (genSecretKey e stream h c).2.1 = e ∧
    (genSecretKey e stream h c).1.lweLargeKey.id = h.next ∧
    (genSecretKey e stream h c).1.fourierGLWEKey.id = h.next + 1 ∧
    e.secretKey.lweLargeKey.id ≠ (genSecretKey e stream h c).1.lweLargeKey.id ∧
    (∀ s : Slice, s.id < h.next → ∀ i,
      (genSecretKey e stream h c).2.2.1.read s i = h.read s i) := by
  refine ⟨rfl, ?_, ?_, ?_, ?_⟩
  · simp only [genSecretKey, genSecretKeyP, newSecretKey, Heap.alloc]
    split_ifs <;> rfl
  · simp only [genSecretKey, genSecretKeyP, newSecretKey, Heap.alloc]
    split_ifs <;> rfl
  · simp only [genSecretKey, genSecretKeyP, newSecretKey, Heap.alloc]
    split_ifs <;> simp <;> omega
  · intro s hs i
    simp only [genSecretKey, genSecretKeyP, newSecretKey, Heap.alloc, Slice.reslice]
    split_ifs with hb
    · rw [Heap.read_fill_other _ _ _ _ _ (by simp; omega),
        Heap.read_fill_other _ _ _ _ _ (by simp; omega)]
      simp only [Heap.read]
      rw [if_neg (by omega), if_neg (by omega)]
    · rw [Heap.read_fill_other _ _ _ _ _ (by simp; omega),
        Heap.read_fill_other _ _ _ _ _ (by simp; omega),
        Heap.read_fill_other _ _ _ _ _ (by simp; omega)]
      simp only [Heap.read]
      rw [if_neg (by omega), if_neg (by omega)]

theorem tzAux_zero (f : Nat) : tzAux f 0 = f := by
  induction f with
  | zero => rfl
  | succ f ih => rw [tzAux, if_pos (by norm_num), Nat.zero_div, ih]

theorem tzAux_two_pow {f k : Nat} (h : k < f) : tzAux f (2 ^ k) = k := by
  induction f generalizing k with
  | zero => omega
  | succ f ih =>
    cases k with
    | zero => simp [tzAux]
    | succ k =>
      rw [tzAux, if_pos (by rw [pow_succ, Nat.mul_mod_left]), pow_succ,
        Nat.mul_div_cancel _ (by omega), ih (by omega)]

theorem goTrailingZeros64_zero : goTrailingZeros64 0 = 64 := tzAux_zero 64

theorem goTrailingZeros64_two_pow {k : Nat} (h : k < 64) : goTrailingZeros64 (2 ^ k) = k :=
  tzAux_two_pow h

theorem getD_map_of_lt {α β : Type} (f : α → β) (l : List α) {i : Nat}
    (h : i < l.length) (d : α) (d2 : β) : (l.map f).getD i d2 = f (l.getD i d) := by
  rw [List.getD_eq_getElem?_getD, List.getElem?_map, List.getD_eq_getElem?_getD,
    List.getElem?_eq_getElem h]
  rfl

theorem toNat_intCast_div (n b : Nat) : (((n : Int)) / (b : Int)).toNat = n / b := by
  norm_cast

/-- The key returned by `genSecretKeyP`: one fresh buffer viewed by the
large key, its prefixes/chunks, and a second fresh buffer for the
Fourier key. -/
theorem genSecretKeyP_fst (p : Parameters) (stream : Nat → Nat) (h : Heap) (c : Nat) :
    (genSecretKeyP p stream h c).1 =
      { lweLargeKey := { id := h.next, off := 0, len := p.glweDimension.toNat }
        lweKey := Slice.reslice { id := h.next, off := 0, len := p.glweDimension.toNat } 0
          p.lweDimension.toNat
        glweKey := (List.range p.glweRank.toNat).map fun i =>
          Slice.reslice { id := h.next, off := 0, len := p.glweDimension.toNat }
            (i * p.polyDegree.toNat) ((i + 1) * p.polyDegree.toNat)
        fourierGLWEKey := { id := h.next + 1, off := 0, len := p.glweDimension.toNat } } := by
  simp only [genSecretKeyP, newSecretKey, Heap.alloc]
  split_ifs <;> rfl

theorem buildLevels_fst_length (p : Parameters) (stream : Nat → Nat) :
    ∀ (n : Nat) (pd lts gd lpd : Int) (h : Heap) (c : Nat),
      (buildLevels p stream pd lts gd lpd n h c).1.length = n := by
  intro n
  induction n with
  | zero => intro pd lts gd lpd h c; rfl
  | succ n ih =>
    intro pd lts gd lpd h c
    simp only [buildLevels, List.length_cons, ih]

/-- The head of the level list: parameters with the first halved
values. -/
theorem buildLevels_getD_zero (p : Parameters) (stream : Nat → Nat)
    (n : Nat) (pd lts gd lpd : Int) (h : Heap) (c : Nat) :
    ((buildLevels p stream pd lts gd lpd (n + 1) h c).1.getD 0 dummyEncryptor).params =
      { p with
        polyDegree := pd
        lookUpTableSize := lts
        glweDimension := gd
        logPolyDegree := lpd } := by
  simp only [buildLevels, List.getD_cons_zero, newEncryptor]

/-- The GLWE dimension of the `i`-th level: the input halved `i` further
times. -/
theorem buildLevels_getD_glweDim (p : Parameters) (stream : Nat → Nat) :
    ∀ (n : Nat) (i : Nat), i < n → ∀ (pd lts gd lpd : Int) (h : Heap) (c : Nat), 0 ≤ gd →
      0 ≤ ((buildLevels p stream pd lts gd lpd n h c).1.getD i dummyEncryptor).params.glweDimension ∧
      ((buildLevels p stream pd lts gd lpd n h c).1.getD i
          dummyEncryptor).params.glweDimension.toNat = gd.toNat / 2 ^ i := by
  intro n
  induction n with
  | zero => omega
  | succ n ih =>
    intro i hi pd lts gd lpd h c hgd
    cases i with
    | zero =>
      refine ⟨?_, ?_⟩ <;>
        simp only [buildLevels, List.getD_cons_zero, newEncryptor, pow_zero, Nat.div_one]
      exact hgd
    | succ i =>
      have hgd2 : 0 ≤ gd.tdiv 2 := Int.tdiv_nonneg hgd (by norm_num)
      have := ih i (by omega) (pd.tdiv 2) (lts.tdiv 2) (gd.tdiv 2) (lpd - 1)
        ((buildLevels p stream pd lts gd lpd (n+1) h c).2.1) 0 hgd2
      have hv : (gd.tdiv 2).toNat = gd.toNat / 2 := by
        rw [Int.tdiv_eq_ediv hgd (by norm_num)]
        rcases Int.eq_ofNat_of_zero_le hgd with ⟨m, rfl⟩
        exact toNat_intCast_div m 2
      simp only [buildLevels, List.getD_cons_succ]
      constructor
      · exact (ih i (by omega) (pd.tdiv 2) (lts.tdiv 2) (gd.tdiv 2) (lpd - 1) _ _ hgd2).1
      · rw [(ih i (by omega) (pd.tdiv 2) (lts.tdiv 2) (gd.tdiv 2) (lpd - 1) _ _ hgd2).2, hv,
          Nat.div_div_eq_div_mul, pow_succ, mul_comm (2 ^ i) 2, mul_comm]

theorem getD_map_range2 {β : Type} (f : Nat → β) {n j : Nat} (h : j < n) (d : β) :
    ((List.range n).map f).getD j d = f j := by
  rw [List.getD_eq_getElem?_getD, List.getElem?_map, List.getElem?_range h]
  rfl

theorem toNat_tdiv_two_le (a : Int) (h : 0 ≤ a) : (a.tdiv 2).toNat ≤ a.toNat := by
  rcases Int.eq_ofNat_of_zero_le h with ⟨m, rfl⟩
  have hm : ((m : Int).tdiv 2).toNat = m / 2 := by
    rw [Int.tdiv_eq_ediv h (by norm_num)]
    exact toNat_intCast_div m 2
  rw [hm]
  exact le_trans (Nat.div_le_self m 2) (by simp)

/-- C6: in the shared-key hierarchy, every encryptor at depth `d ≥ 1`
has its `LWELargeKey` repointed at a prefix view — same buffer id,
offset 0, length `glweDimension_d` — of the root encryptor's
`LWELargeKey` (no copy); its `LWEKey` views the same prefix cut at
`lweDimension`, and its `GLWEKey` polynomials view the chunks
`[j·N_d, (j+1)·N_d)`.  Reads through the depth-`d` view agree with reads
through the root view, and a write through the depth-`d` view is the
same heap mutation as the write through the root view, in any heap. -/
theorem hierarchy_sharedKeyAliasing (p : Parameters) (stream : Nat → Nat) (h : Heap) (c : Nat)
    (d : Nat) (hd1 : 1 ≤ d) (hd2 : d < hierDepth p.polyDegree) (hgd : 0 ≤ p.glweDimension) :
    (newEncryptorHierarchyWithSharedLWEKey p stream h c).isSome = true ∧
    ((hierResult p stream h c).1.getD d dummyEncryptor).secretKey.lweLargeKey =
      { id := ((hierResult p stream h c).1.getD 0 dummyEncryptor).secretKey.lweLargeKey.id
        off := 0
        len := ((hierResult p stream h c).1.getD d
          dummyEncryptor).params.glweDimension.toNat } ∧
    ((hierResult p stream h c).1.getD 0 dummyEncryptor).secretKey.lweLargeKey.off = 0 ∧
    ((hierResult p stream h c).1.getD d dummyEncryptor).secretKey.lweLargeKey.len ≤
      ((hierResult p stream h c).1.getD 0 dummyEncryptor).secretKey.lweLargeKey.len ∧
    ((hierResult p stream h c).1.getD d dummyEncryptor).secretKey.lweKey =
      { id := ((hierResult p stream h c).1.getD 0 dummyEncryptor).secretKey.lweLargeKey.id
        off := 0
        len := ((hierResult p stream h c).1.getD d
          dummyEncryptor).params.lweDimension.toNat } ∧
    (∀ j, j < ((hierResult p stream h c).1.getD d dummyEncryptor).params.glweRank.toNat →
      ((hierResult p stream h c).1.getD d dummyEncryptor).secretKey.glweKey.getD j dummySlice =
        { id := ((hierResult p stream h c).1.getD 0 dummyEncryptor).secretKey.lweLargeKey.id
          off := j * ((hierResult p stream h c).1.getD d
            dummyEncryptor).params.polyDegree.toNat
          len := (j + 1) * ((hierResult p stream h c).1.getD d
              dummyEncryptor).params.polyDegree.toNat -
            j * ((hierResult p stream h c).1.getD d
              dummyEncryptor).params.polyDegree.toNat }) ∧
    (∀ h2 : Heap, ∀ i,
      h2.read ((hierResult p stream h c).1.getD d dummyEncryptor).secretKey.lweLargeKey i =
      h2.read ((hierResult p stream h c).1.getD 0 dummyEncryptor).secretKey.lweLargeKey i) ∧
    (∀ h2 : Heap, ∀ i v,
      h2.write ((hierResult p stream h c).1.getD d dummyEncryptor).secretKey.lweLargeKey i v =
      h2.write ((hierResult p stream h c).1.getD 0 dummyEncryptor).secretKey.lweLargeKey i v) := by
  obtain ⟨k, hk⟩ : ∃ k, hierDepth p.polyDegree = k + 1 :=
    ⟨hierDepth p.polyDegree - 1, by omega⟩
  obtain ⟨e, rfl⟩ : ∃ e, d = e + 1 := ⟨d - 1, by omega⟩
  have hek : e < k := by omega
  have hgd2 : 0 ≤ p.glweDimension.tdiv 2 := Int.tdiv_nonneg hgd (by norm_num)
  have hgd4 : 0 ≤ (p.glweDimension.tdiv 2).tdiv 2 := Int.tdiv_nonneg hgd2 (by norm_num)
  simp only [hierResult, newEncryptorHierarchyWithSharedLWEKey, hk, buildLevels, newEncryptor]
  simp only [Option.getD_some, Option.isSome_some, List.getD_cons_zero, List.getD_cons_succ,
    true_and]
  have hlen : (buildLevels p stream ((p.polyDegree.tdiv 2).tdiv 2)
      ((p.lookUpTableSize.tdiv 2).tdiv 2) ((p.glweDimension.tdiv 2).tdiv 2)
      (p.logPolyDegree - 1 - 1) k
      (genSecretKeyP
        { p with
          polyDegree := p.polyDegree.tdiv 2
          lookUpTableSize := p.lookUpTableSize.tdiv 2
          glweDimension := p.glweDimension.tdiv 2
          logPolyDegree := p.logPolyDegree - 1 } stream h c).2.1
      (genSecretKeyP
        { p with
          polyDegree := p.polyDegree.tdiv 2
          lookUpTableSize := p.lookUpTableSize.tdiv 2
          glweDimension := p.glweDimension.tdiv 2
          logPolyDegree := p.logPolyDegree - 1 } stream h c).2.2).1.length = k :=
    buildLevels_fst_length p stream k _ _ _ _ _ _
  have hlt := lt_of_lt_of_eq hek hlen.symm
  rw [getD_map_of_lt _ _ hlt dummyEncryptor]
  have hXdim := (buildLevels_getD_glweDim p stream k e hek
      ((p.polyDegree.tdiv 2).tdiv 2) ((p.lookUpTableSize.tdiv 2).tdiv 2)
      ((p.glweDimension.tdiv 2).tdiv 2) (p.logPolyDegree - 1 - 1)
      (genSecretKeyP
        { p with
          polyDegree := p.polyDegree.tdiv 2
          lookUpTableSize := p.lookUpTableSize.tdiv 2
          glweDimension := p.glweDimension.tdiv 2
          logPolyDegree := p.logPolyDegree - 1 } stream h c).2.1
      (genSecretKeyP
        { p with
          polyDegree := p.polyDegree.tdiv 2
          lookUpTableSize := p.lookUpTableSize.tdiv 2
          glweDimension := p.glweDimension.tdiv 2
          logPolyDegree := p.logPolyDegree - 1 } stream h c).2.2 hgd4).2
  constructor
  · simp [shareViews, genSecretKeyP_fst, Slice.reslice]
  constructor
  · simp [genSecretKeyP_fst]
  constructor
  · simp only [shareViews, genSecretKeyP_fst, Slice.reslice, Nat.sub_zero]
    rw [hXdim]
    exact le_trans (Nat.div_le_self _ _) (toNat_tdiv_two_le _ hgd2)
  constructor
  · simp [shareViews, genSecretKeyP_fst, Slice.reslice]
  constructor
  · intro j hj
    simp only [shareViews] at hj ⊢
    rw [getD_map_range2 _ hj dummySlice]
    simp [genSecretKeyP_fst, Slice.reslice]
  constructor
  · intro h2 i
    simp [shareViews, genSecretKeyP_fst, Slice.reslice, Heap.read]
  · intro h2 i v
    simp [shareViews, genSecretKeyP_fst, Slice.reslice, Heap.write]

theorem hierarchy_sharedKeyAliasing_witness :
    1 ≤ 1 ∧ 1 < hierDepth sampleHierParams.polyDegree ∧ 0 ≤ sampleHierParams.glweDimension ∧
    (newEncryptorHierarchyWithSharedLWEKey sampleHierParams (fun i => i)
      sampleHeap 0).isSome = true :=
  ⟨le_refl 1, by decide, by decide,
    (hierarchy_sharedKeyAliasing sampleHierParams (fun i => i) sampleHeap 0 1 (le_refl 1)
      (by decide) (by decide)).1⟩

theorem genSecretKey_fresh_frame_witness :
    sampleEncryptor.secretKey.lweLargeKey.id < sampleHeap.next ∧
    ((genSecretKey sampleEncryptor (fun i => i) sampleHeap 0).2.1 = sampleEncryptor ∧
     (genSecretKey sampleEncryptor (fun i => i) sampleHeap 0).1.lweLargeKey.id =
       sampleHeap.next ∧
     (genSecretKey sampleEncryptor (fun i => i) sampleHeap 0).1.fourierGLWEKey.id =
       sampleHeap.next + 1 ∧
     sampleEncryptor.secretKey.lweLargeKey.id ≠
       (genSecretKey sampleEncryptor (fun i => i) sampleHeap 0).1.lweLargeKey.id ∧
     (∀ s : Slice, s.id < sampleHeap.next → ∀ i,
       (genSecretKey sampleEncryptor (fun i => i) sampleHeap 0).2.2.1.read s i =
         sampleHeap.read s i)) :=
  ⟨by decide, genSecretKey_fresh_frame sampleEncryptor (fun i => i) sampleHeap 0 (by decide)⟩

theorem hierarchy_isSome_of_depth_pos (p : Parameters) (stream : Nat → Nat) (h : Heap)
    (c : Nat) (hd : hierDepth p.polyDegree ≠ 0) :
    (newEncryptorHierarchyWithSharedLWEKey p stream h c).isSome = true := by
  obtain ⟨k, hk⟩ : ∃ k, hierDepth p.polyDegree = k + 1 :=
    ⟨hierDepth p.polyDegree - 1, by omega⟩
  simp only [newEncryptorHierarchyWithSharedLWEKey, hk, buildLevels]
  simp only [Option.isSome_some]

theorem hierDepth_two_pow (j : Nat) (hj : j < 64) :
    hierDepth ((2 : Int) ^ j) = if j < 11 then 64 else j - 11 := by
  rw [hierDepth]
  split_ifs with hcase
  · have hz : ((2 : Int) ^ j).tdiv 2048 = 0 := by
      rw [Int.tdiv_eq_ediv (by positivity) (by norm_num)]
      refine Int.ediv_eq_zero_of_lt (by positivity) ?_
      calc (2 : Int) ^ j ≤ 2 ^ 10 := by
            exact pow_le_pow_right (by norm_num) (by omega)
        _ < 2048 := by norm_num
    rw [hz]
    exact goTrailingZeros64_zero
  · have hsplit : (2 : Int) ^ j = (2 : Int) ^ (j - 11) * 2048 := by
      have : (2 : Int) ^ j = 2 ^ (j - 11) * 2 ^ 11 := by
        rw [← pow_add]
        congr 1
        omega
      rw [this]
      norm_num
    rw [hsplit, Int.mul_tdiv_cancel _ (by norm_num)]
    have hcast : ((2 : Int) ^ (j - 11)).toNat = 2 ^ (j - 11) := by
      rw [show ((2 : Int) ^ (j - 11)) = ((2 ^ (j - 11) : Nat) : Int) by push_cast; ring]
      exact Int.toNat_natCast _
    rw [hcast]
    exact goTrailingZeros64_two_pow (by omega)

/-- C10's counterexample: `lit1024` compiles (so it is a compiled
parameter set) with `polyDegree = 1024 ≤ 2048`, yet the computed depth is
`TrailingZeros(1024/2048) = TrailingZeros(0) = 64`, not 0, and the
hierarchy constructor returns a non-empty hierarchy instead of hitting
the empty-slice panic. -/
theorem hierarchy_panicDomain_counterexample :
    (paramsCompile 64 lit1024).isSome = true ∧
    ((paramsCompile 64 lit1024).getD sampleParams).polyDegree ≤ 2048 ∧
    hierDepth ((paramsCompile 64 lit1024).getD sampleParams).polyDegree = 64 ∧
    ∀ (stream : Nat → Nat) (h : Heap) (c : Nat),
      (newEncryptorHierarchyWithSharedLWEKey ((paramsCompile 64 lit1024).getD sampleParams)
        stream h c).isSome = true := by
  refine ⟨by decide, by decide, by decide, ?_⟩
  intro stream h c
  exact hierarchy_isSome_of_depth_pos _ stream h c (by decide)

/-- C10 amended: for `polyDegree = 2^j` (every compiled set has a
power-of-two degree), the computed depth `TrailingZeros(N/2048)` is 0 —
and the constructor hits the empty-slice panic — exactly when
`N = 2048`; for every other power of two (including every `N < 2048`,
where `TrailingZeros(0) = 64`) it returns a non-empty hierarchy whose
first encryptor has `polyDegree = N/2`. -/
theorem hierarchy_panicDomain_amended (p : Parameters) (j : Nat)
    (hN : p.polyDegree = 2 ^ j) (hj : j < 64) :
    (hierDepth p.polyDegree = 0 ↔ p.polyDegree = 2048) ∧
    (p.polyDegree = 2048 →
      ∀ (stream : Nat → Nat) (h : Heap) (c : Nat),
        newEncryptorHierarchyWithSharedLWEKey p stream h c = none) ∧
    (p.polyDegree ≠ 2048 →
      ∀ (stream : Nat → Nat) (h : Heap) (c : Nat),
        (newEncryptorHierarchyWithSharedLWEKey p stream h c).isSome = true ∧
        ((hierResult p stream h c).1.getD 0 dummyEncryptor).params.polyDegree =
          p.polyDegree.tdiv 2) := by
  have hdepth : hierDepth p.polyDegree = if j < 11 then 64 else j - 11 := by
    rw [hN]; exact hierDepth_two_pow j hj
  have h2048 : p.polyDegree = 2048 ↔ j = 11 := by
    rw [hN]
    constructor
    · intro hval
      have : (2 : Int) ^ j = 2 ^ 11 := by rw [hval]; norm_num
      exact Nat.pow_right_injective (le_refl 2) (by exact_mod_cast this)
    · intro hval; rw [hval]; norm_num
  refine ⟨?_, ?_, ?_⟩
  · rw [hdepth, h2048]
    by_cases hcase : j < 11
    · rw [if_pos hcase]; omega
    · rw [if_neg hcase]; omega
  · intro hval stream h c
    have hd0 : hierDepth p.polyDegree = 0 := by
      rw [hdepth]
      have := h2048.mp hval
      split_ifs with hcase <;> omega
    simp only [newEncryptorHierarchyWithSharedLWEKey, hd0, buildLevels]
  · intro hval stream h c
    have hd0 : hierDepth p.polyDegree ≠ 0 := by
      rw [hdepth]
      have := h2048.not.mp hval
      split_ifs with hcase <;> omega
    refine ⟨hierarchy_isSome_of_depth_pos p stream h c hd0, ?_⟩
    obtain ⟨k, hk⟩ : ∃ k, hierDepth p.polyDegree = k + 1 :=
      ⟨hierDepth p.polyDegree - 1, by omega⟩
    simp only [hierResult, newEncryptorHierarchyWithSharedLWEKey, hk, buildLevels,
      newEncryptor]
    simp only [Option.getD_some, List.getD_cons_zero]

theorem hierarchy_panicDomain_amended_witness :
    (sampleHierParams.polyDegree = 2 ^ 13 ∧ 13 < 64) ∧
    ((hierDepth sampleHierParams.polyDegree = 0 ↔ sampleHierParams.polyDegree = 2048) ∧
     (sampleHierParams.polyDegree = 2048 →
       ∀ (stream : Nat → Nat) (h : Heap) (c : Nat),
         newEncryptorHierarchyWithSharedLWEKey sampleHierParams stream h c = none) ∧
     (sampleHierParams.polyDegree ≠ 2048 →
       ∀ (stream : Nat → Nat) (h : Heap) (c : Nat),
         (newEncryptorHierarchyWithSharedLWEKey sampleHierParams stream h c).isSome = true ∧
         ((hierResult sampleHierParams stream h c).1.getD 0
             dummyEncryptor).params.polyDegree = sampleHierParams.polyDegree.tdiv 2)) :=
  ⟨⟨by decide, by decide⟩,
    hierarchy_panicDomain_amended sampleHierParams 13 (by decide) (by decide)⟩

end FastFDFB
